import Mathlib

/-!
# DocSpective — verification of the upload/convert/deploy workflow

A shallow embedding of the core of the DocSpective document-processing
gateway (`DocAnalyserService.ts`, `RegistryService`, `ShareDoService`) and
proofs about it.

Modelling conventions:
* File contents (blob entries, ZIP entries, XML parts) are modelled as
  `String` (the code manipulates them as UTF-8 text; entries it never
  inspects are carried through opaquely).
* JavaScript `undefined`/missing values are `Option.none`; JS truthiness of
  a string-or-undefined value is `jsTruthy`.
* The relational store's tables are association lists; the SQL
  `ON CONFLICT` upserts are embedded as the corresponding list operations.
* External HTTP collaborators (converter, ShareDo) are oracles passed in as
  explicit parameters; the functions under verification are the pure
  state-transition cores of the TypeScript methods.
-/

namespace DocSpective

/-- JS truthiness for a string-or-undefined value: `undefined` and `""` are
falsy, every other string is truthy. -/
def jsTruthy (o : Option String) : Bool :=
  o.getD "" != ""

/-- JS `a || b` on string-or-undefined values. -/
def jsOr (a b : Option String) : Option String :=
  if jsTruthy a then a else b

/-- JS `String.prototype.trim` (ASCII whitespace model): strip leading
and trailing whitespace. -/
def jsTrim (s : String) : String :=
  ⟨((s.data.dropWhile Char.isWhitespace).reverse.dropWhile
      Char.isWhitespace).reverse⟩

/-- JS template-literal rendering of a string-or-undefined value
(`undefined` prints as "undefined"). -/
def jsStr (o : Option String) : String :=
  o.getD "undefined"

/-- One row of the `templates` table (TS interface `TemplateRow` /
`RegistryEntry`).  All fields are string-or-undefined, mirroring the
loosely-typed TS interface. -/
structure TemplateRow where
  template_type : Option String := none
  system_name : Option String := none
  name : Option String := none
  categories : Option String := none
  data_context : Option String := none
  participant_role : Option String := none
  output_title : Option String := none
  output_file_name : Option String := none
  document_source : Option String := none
  docid : Option String := none
  batch_id : Option String := none
  converted_file_path : Option String := none
  sharedo_pathid : Option String := none
  sharedo_downloadurl : Option String := none
deriving DecidableEq

/-- A parsed CSV record, as `csv-parser` hands it to the `data` callback:
a lookup from column key to cell value (`none` = column absent). -/
structure CsvRecord where
  get : String → Option String

/-- `row.k1 || row['K2']` — the field-resolution idiom of
`processUploadWorkflow`: snake_case key first, then the human-readable
header, first non-empty (truthy) match wins. -/
def resolveField (r : CsvRecord) (k1 k2 : String) : Option String :=
  jsOr (r.get k1) (r.get k2)

/-- The `TemplateRow` built from one CSV record in
`DocAnalyserService.processUploadWorkflow` (lines 363-379). -/
def rowFromRecord (r : CsvRecord) (batchId : String) : TemplateRow :=
  { template_type := resolveField r "template_type" "Template Type"
    system_name := resolveField r "system_name" "System Name"
    name := resolveField r "name" "Name"
    categories := resolveField r "categories" "Categories"
    data_context := resolveField r "data_context" "Data Context"
    participant_role := resolveField r "participant_role" "Participant Role"
    output_title := resolveField r "output_title" "Output Title"
    output_file_name := resolveField r "output_file_name" "Output File Name"
    document_source := resolveField r "document_source" "Document Source"
    docid := resolveField r "docid" "DocID"
    batch_id := some batchId
    converted_file_path := some ""
    sharedo_pathid := some ""
    sharedo_downloadurl := some "" }

/-- The acceptance test of `processUploadWorkflow`:
`if (templateRow.docid && templateRow.name)`. -/
def acceptRow (t : TemplateRow) : Bool :=
  jsTruthy t.docid && jsTruthy t.name

/-- The CSV-parsing stage of `processUploadWorkflow`: map every record to a
`TemplateRow` and keep only the accepted ones (rows missing `docid` or
`name` are silently dropped). -/
def parseManifestRows (records : List CsvRecord) (batchId : String) :
    List TemplateRow :=
  (records.map (fun r => rowFromRecord r batchId)).filter acceptRow

/-- The zero-rows guard of `processUploadWorkflow` (line 390):
`if (csvRows.length === 0) throw`. -/
def checkParsedRows (rows : List TemplateRow) :
    Except String (List TemplateRow) :=
  if rows.length = 0 then .error "No valid rows found in CSV file"
  else .ok rows

/-- The manifest-ingestion stage: parse records, then apply the zero-rows
guard. -/
def ingestManifest (records : List CsvRecord) (batchId : String) :
    Except String (List TemplateRow) :=
  checkParsedRows (parseManifestRows records batchId)

/-! ## Registry store: upsert (`upsertTemplate`) and batches (`createBatch`) -/

/-- The fresh row inserted by `upsertTemplate`'s `INSERT` when no `docid`
conflict occurs.  Derived columns (`converted_file_path`,
`sharedo_pathid`, `sharedo_downloadurl`) take their column defaults. -/
def freshRow (t : TemplateRow) (batchId : String) : TemplateRow :=
  { template_type := t.template_type
    system_name := t.system_name
    name := t.name
    categories := t.categories
    data_context := t.data_context
    participant_role := t.participant_role
    output_title := t.output_title
    output_file_name := t.output_file_name
    document_source := t.document_source
    docid := t.docid
    batch_id := jsOr t.batch_id (some batchId) }

/-- The `DO UPDATE SET` clause of `upsertTemplate`: overwrite every
descriptive field, `docid` and `batch_id` with the new values; columns not
listed (the derived ones) keep the old row's values. -/
def updatedRow (t : TemplateRow) (batchId : String) (old : TemplateRow) :
    TemplateRow :=
  { old with
    template_type := t.template_type
    system_name := t.system_name
    name := t.name
    categories := t.categories
    data_context := t.data_context
    participant_role := t.participant_role
    output_title := t.output_title
    output_file_name := t.output_file_name
    document_source := t.document_source
    docid := t.docid
    batch_id := jsOr t.batch_id (some batchId) }

/-- `INSERT ... ON CONFLICT (docid) DO UPDATE ... RETURNING *` against the
`templates` table, with the table as a row list: update the conflicting
row in place, or append a fresh row; return the new table and the
resulting row. -/
def upsertRows : List TemplateRow → TemplateRow → String →
    List TemplateRow × TemplateRow
  | [], t, b => ([freshRow t b], freshRow t b)
  | r :: rest, t, b =>
    if r.docid = t.docid then
      (updatedRow t b r :: rest, updatedRow t b r)
    else
      let p := upsertRows rest t b
      (r :: p.1, p.2)

/-- `DocAnalyserService.upsertTemplate` (lines 247-298): run the upsert;
when the underlying query fails with message `m` (oracle `dbErr`), rethrow
wrapped as `Failed to upsert template with docid '...': m`. -/
def upsertTemplate (reg : List TemplateRow) (t : TemplateRow)
    (batchId : String) (dbErr : Option String) :
    Except String (List TemplateRow × TemplateRow) :=
  match dbErr with
  | some m =>
    .error ("Failed to upsert template with docid '" ++ jsStr t.docid
      ++ "': " ++ m)
  | none => .ok (upsertRows reg t batchId)

/-- Number of rows of the table carrying a given `docid`. -/
def countDoc (reg : List TemplateRow) (d : Option String) : Nat :=
  (reg.filter (fun r => r.docid = d)).length

/-- The `uploads` table: rows `(id, filepath)` plus the sequence backing
the auto-generated id. -/
structure UploadsTable where
  rows : List (Nat × String)
  nextId : Nat
deriving DecidableEq

/-- `DocAnalyserService.createBatch` (lines 221-242):
`INSERT INTO uploads ... ON CONFLICT (filepath) DO UPDATE SET filepath =
EXCLUDED.filepath RETURNING id` — on conflict the existing row's id is
returned and no row is added. -/
def createBatch (tbl : UploadsTable) (path : String) : UploadsTable × Nat :=
  match tbl.rows.find? (fun r => r.2 = path) with
  | some r => (tbl, r.1)
  | none => (⟨tbl.rows ++ [(tbl.nextId, path)], tbl.nextId + 1⟩, tbl.nextId)

/-! ## ShareDo client: token cache (`ShareDoService.getAccessToken`) -/

/-- The process-wide token cache slot (TS interface `TokenCache`).
Instants are milliseconds since epoch, as `Date.now()` returns. -/
structure TokenCache where
  accessToken : String
  expiresAt : Int
  expiresIn : Int
  tokenType : String
deriving DecidableEq

/-- The token endpoint's response, as `getAccessToken` reads it:
HTTP success flag plus the JSON fields it consults. -/
structure TokenResp where
  ok : Bool
  status : Nat
  statusText : String
  access_token : Option String
  expires_in : Int
  token_type : Option String

/-- What `getAccessToken` resolves with. -/
structure TokenResult where
  access_token : String
  expires_in : Int
  token_type : String
  cached : Bool
  expires_at : Int
deriving DecidableEq

/-- `ShareDoService.getAccessToken` (lines 39-96) as a state transition on
the cache slot: serve from cache while `now < expiresAt - 30000`; otherwise
perform the credential-grant exchange (oracle `resp`), failing without
touching the cache on a non-2xx response or a response lacking
`access_token`, and otherwise replacing the cache with the new token whose
absolute expiry is `now + expires_in * 1000`. Returns the new cache slot
and the outcome. -/
def getAccessToken (cache : Option TokenCache) (now : Int)
    (resp : TokenResp) : Option TokenCache × Except String TokenResult :=
  match cache with
  | some tc =>
    if now < tc.expiresAt - 30000 then
      (some tc, .ok
        { access_token := tc.accessToken
          expires_in := tc.expiresIn
          token_type := tc.tokenType
          cached := true
          expires_at := tc.expiresAt })
    else
      if !resp.ok then
        (some tc, .error ("ShareDo authentication failed: "
          ++ toString resp.status ++ " " ++ resp.statusText))
      else if !(jsTruthy resp.access_token) then
        (some tc, .error "No access token received from ShareDo")
      else
        let ea := now + resp.expires_in * 1000
        (some { accessToken := resp.access_token.getD ""
                expiresAt := ea
                expiresIn := resp.expires_in
                tokenType := (jsOr resp.token_type (some "Bearer")).getD "" },
         .ok { access_token := resp.access_token.getD ""
               expires_in := resp.expires_in
               token_type := (jsOr resp.token_type (some "Bearer")).getD ""
               cached := false
               expires_at := ea })
  | none =>
    if !resp.ok then
      (none, .error ("ShareDo authentication failed: "
        ++ toString resp.status ++ " " ++ resp.statusText))
    else if !(jsTruthy resp.access_token) then
      (none, .error "No access token received from ShareDo")
    else
      let ea := now + resp.expires_in * 1000
      (some { accessToken := resp.access_token.getD ""
              expiresAt := ea
              expiresIn := resp.expires_in
              tokenType := (jsOr resp.token_type (some "Bearer")).getD "" },
       .ok { access_token := resp.access_token.getD ""
             expires_in := resp.expires_in
             token_type := (jsOr resp.token_type (some "Bearer")).getD ""
             cached := false
             expires_at := ea })

/-! ## ShareDo client: name resolution
(`getTemplateTypeSystemName`, `getContextTypeSystemName`) -/

/-- A ShareDo template type or derived work type, with the two fields the
resolution code reads. -/
structure PlatformType where
  name : Option String
  systemName : Option String
deriving DecidableEq

/-- A ShareDo work type: a `PlatformType` possibly carrying a
`derivedTypes` array. -/
structure WorkType where
  name : Option String
  systemName : Option String
  derivedTypes : Option (List PlatformType)
deriving DecidableEq

/-- The match predicate used in both resolution methods:
`type.name === q || type.name?.toLowerCase() === q.toLowerCase()`. -/
def nameMatches (tname : Option String) (q : String) : Bool :=
  match tname with
  | none => false
  | some n => n == q || n.toLower == q.toLower

/-- `ShareDoService.getTemplateTypeSystemName` (lines 170-185): the listing
call's outcome is the oracle `fetch`; any listing failure is caught and
swallowed into `none`, and a no-match also yields `none`. -/
def getTemplateTypeSystemName (fetch : Except String (List PlatformType))
    (q : String) : Option String :=
  match fetch with
  | .error _ => none
  | .ok types =>
    match types.find? (fun t => nameMatches t.name q) with
    | some t => t.systemName
    | none => none

/-- The derived-types pass of `getContextTypeSystemName`: first work type
owning a matching derived type wins (its `systemName` is returned even when
that field is absent). -/
def findDerived : List WorkType → String → Option String
  | [], _ => none
  | wt :: rest, q =>
    match wt.derivedTypes with
    | some dl =>
      match dl.find? (fun d => nameMatches d.name q) with
      | some d => d.systemName
      | none => findDerived rest q
    | none => findDerived rest q

/-- `ShareDoService.getContextTypeSystemName` (lines 190-222): top-level
match first, then one level of derived types; any listing failure is caught
and swallowed into `none`. -/
def getContextTypeSystemName (fetch : Except String (List WorkType))
    (q : String) : Option String :=
  match fetch with
  | .error _ => none
  | .ok wts =>
    match wts.find? (fun t => nameMatches t.name q) with
    | some t => t.systemName
    | none => findDerived wts q

/-! ## Convert workflow (`DocAnalyserService.convertDocumentWorkflow`) -/

/-- `docid.replace(/\.[^\x2f.]+$/, '')` — drop the final extension: the
string loses its last `.`-segment exactly when that segment is non-empty
and contains neither `.` nor `/`.  Implemented by scanning the reversed
character list. -/
def removeExtension (s : String) : String :=
  let rev := s.data.reverse
  let ext := rev.takeWhile (fun c => c ≠ '.' && c ≠ '/')
  let rest := rev.dropWhile (fun c => c ≠ '.' && c ≠ '/')
  match rest with
  | '.' :: base => if ext.isEmpty then s else ⟨base.reverse⟩
  | _ => s

/-- The blob store (Supabase storage): bucket and path to content. -/
def Store := String → String → Option String

/-- `uploadFile` with `upsert: true`: overwrite the object and return its
path (`data.path`). -/
def storePut (s : Store) (bucket path content : String) : Store :=
  fun b p => if b = bucket ∧ p = path then some content else s b p

/-- The external converter's response, with the fields
`convertDocument` reads. -/
structure ConvResp where
  status : Nat
  statusText : String
  body : String
  bytes : String

/-- WHATWG `response.ok`: status in the 2xx range. -/
def respOk (r : ConvResp) : Bool :=
  200 ≤ r.status && r.status < 300

/-- `SELECT * FROM templates WHERE docid = $1` row lookup
(`getTemplateByDocId`). -/
def findRow (reg : List TemplateRow) (docid : String) : Option TemplateRow :=
  reg.find? (fun r => r.docid = some docid)

/-- `UPDATE templates SET converted_file_path = $1 WHERE docid = $2`
(`updateTemplateConvertedFilePath`). -/
def updateConvertedPath (reg : List TemplateRow) (docid path : String) :
    List TemplateRow :=
  reg.map (fun r =>
    if r.docid = some docid then { r with converted_file_path := some path }
    else r)

/-- What `convertDocumentWorkflow` resolves with. -/
structure ConvertResult where
  docid : String
  convertedFilePath : String
deriving DecidableEq

/-- `DocAnalyserService.convertDocumentWorkflow` (lines 186-216): look up
the registry row (not-found aborts), fetch `uploads/{docid}`, call the
external converter (oracle `convert`; 408 becomes the timeout error, any
other non-2xx the conversion error), store the result under
`conversions/{docid minus extension}.docx`, update the row's
`converted_file_path`, and return `{docid, convertedFilePath}` together
with the new registry and store. -/
def convertDocumentWorkflow (convert : String → String → ConvResp)
    (reg : List TemplateRow) (store : Store) (docid : String) :
    Except String (ConvertResult × List TemplateRow × Store) :=
  match findRow reg docid with
  | none => .error ("Template with docid '" ++ docid ++ "' not found")
  | some _ =>
    match store "uploads" docid with
    | none => .error ("Failed to download file from uploads/" ++ docid)
    | some originalBytes =>
      let resp := convert originalBytes docid
      if respOk resp then
        let convertedFileName := removeExtension docid ++ ".docx"
        let store' := storePut store "conversions" convertedFileName resp.bytes
        let reg' := updateConvertedPath reg docid convertedFileName
        .ok (⟨docid, convertedFileName⟩, reg', store')
      else if resp.status = 408 then
        .error "Conversion timeout exceeded - file may be too complex"
      else
        .error ("Conversion service failed: " ++ toString resp.status ++ " "
          ++ resp.statusText ++ " - " ++ resp.body)

/-! ## Deploy workflow (`DocAnalyserService.deployToShareDo`) -/

/-- One descriptor of ShareDo's upload response, with the two fields the
deploy code extracts. -/
structure UploadedFile where
  pathId : String
  downloadUrl : String
deriving DecidableEq

/-- The slice of the `CreateTemplateRequest` payload that the deploy logic
computes (everything else is a structural constant). -/
structure CreatePayload where
  systemName : String
  templateType : String
  contextTypeSystemName : String
  sourceFilePath : String
deriving DecidableEq

/-- Externally visible actions of a deploy run, in order. -/
inductive DeployEvent where
  | warnTemplateType (displayName : String)
  | fetchConverted (path : String)
  | uploadToShareDo (fileName folder : String)
  | createTemplateCall (payload : CreatePayload)
deriving DecidableEq

/-- The oracles a deploy run consults. -/
structure DeployEnv where
  resolveTemplateType : String → Option String
  resolveContextType : String → Option String
  download : String → String → Option String
  upload : String → String → String → Except String (List UploadedFile)
  createTemplate : CreatePayload → Except String String
  persistFails : Option String

/-- Outcome of a deploy run: result, ordered trace of external actions,
and the final registry table. -/
structure DeployOut where
  result : Except String String
  trace : List DeployEvent
  registry : List TemplateRow

/-- `UPDATE templates SET sharedo_pathid = $1, sharedo_downloadurl = $2
WHERE docid = $3` (`updateTemplateShareDoInfo`). -/
def updateShareDoInfo (reg : List TemplateRow) (docid pathId url : String) :
    List TemplateRow :=
  reg.map (fun r =>
    if r.docid = some docid then
      { r with sharedo_pathid := some pathId, sharedo_downloadurl := some url }
    else r)

/-- The template-type resolution step of `deployToShareDo` (lines 423-432):
skipped when `template_type` is falsy; a falsy resolution result is
tolerated — empty string substituted and a warning emitted. Returns the
system name used and the warning trace. -/
def resolveTemplateTypeStep (env : DeployEnv) (t : TemplateRow) :
    String × List DeployEvent :=
  if jsTruthy t.template_type then
    match env.resolveTemplateType (t.template_type.getD "") with
    | some s =>
      if s = "" then ("", [.warnTemplateType (t.template_type.getD "")])
      else (s, [])
    | none => ("", [.warnTemplateType (t.template_type.getD "")])
  else ("", [])

/-- The body of `deployToShareDo` after the template-type step, given the
resolved template-type system name `ttsn` (lines 434-586): the mandatory
context-type resolution from `data_context` (absence or miss is fatal),
then the non-blank `converted_file_path` check, then fetch, try-block
(upload, first-descriptor extraction, persistence — any failure rethrown
as `Failed to upload file to ShareDo: ...`), then template creation.  The
trace lists the externally visible actions of this part, in order. -/
def deployAfterResolve (env : DeployEnv) (reg : List TemplateRow)
    (docid templateFolder : String) (t : TemplateRow) (ttsn : String) :
    DeployOut :=
  if !(jsTruthy t.data_context) then
    ⟨.error "Template data_context is required for deployment", [], reg⟩
  else
    match env.resolveContextType (t.data_context.getD "") with
    | none =>
      ⟨.error ("Context type \"" ++ t.data_context.getD ""
        ++ "\" not found in ShareDo work types"), [], reg⟩
    | some c =>
      if c = "" then
        ⟨.error ("Context type \"" ++ t.data_context.getD ""
          ++ "\" not found in ShareDo work types"), [], reg⟩
      else if jsTrim (t.converted_file_path.getD "") = "" then
        ⟨.error ("Template with docid '" ++ docid
          ++ "' has no converted file path. Please convert the document first."),
         [], reg⟩
      else
        let cfp := t.converted_file_path.getD ""
        match env.download "conversions" cfp with
        | none =>
          ⟨.error ("Failed to download file from conversions/" ++ cfp),
           [.fetchConverted cfp], reg⟩
        | some bytes =>
          let tr := [DeployEvent.fetchConverted cfp,
            DeployEvent.uploadToShareDo cfp templateFolder]
          match env.upload bytes cfp templateFolder with
          | .error m =>
            ⟨.error ("Failed to upload file to ShareDo: " ++ m), tr, reg⟩
          | .ok [] =>
            ⟨.error ("Failed to upload file to ShareDo: Upload succeeded but no file path returned from ShareDo - []"),
             tr, reg⟩
          | .ok (f :: _) =>
            match env.persistFails with
            | some m =>
              ⟨.error ("Failed to upload file to ShareDo: " ++ m), tr, reg⟩
            | none =>
              let reg' := updateShareDoInfo reg docid f.pathId f.downloadUrl
              let payload : CreatePayload :=
                { systemName := t.system_name.getD ""
                  templateType := ttsn
                  contextTypeSystemName := c
                  sourceFilePath := f.pathId }
              let tr' := tr ++ [DeployEvent.createTemplateCall payload]
              match env.createTemplate payload with
              | .error m => ⟨.error m, tr', reg'⟩
              | .ok id => ⟨.ok id, tr', reg'⟩

/-- `DocAnalyserService.deployToShareDo` (lines 416-586): look up the row;
resolve the template-type system name (tolerant, warning only); then run
the rest of the deployment.  The RegistryService variant additionally
patches the container between fetch and upload; the guard structure is
identical. -/
def deployToShareDo (env : DeployEnv) (reg : List TemplateRow)
    (docid templateFolder : String) : DeployOut :=
  match findRow reg docid with
  | none =>
    ⟨.error ("Template with docid '" ++ docid ++ "' not found"), [], reg⟩
  | some t =>
    let tt := resolveTemplateTypeStep env t
    let out := deployAfterResolve env reg docid templateFolder t tt.1
    ⟨out.result, tt.2 ++ out.trace, out.registry⟩

/-! ## Container patcher: string machinery

`addCustomPropertyToExisting` finds existing property indices with the
global regex `pid="(\d+)"` and `addCustomPropertyToNew` finds relationship
ids with `Id="rId(\d+)"`; both take `parseInt` of each match and
`Math.max(...) + 1`.  `litScan` is the common scanner: it walks the text
and collects every occurrence of a literal prefix followed by one or more
digits and a closing quote, advancing past each match, exactly as the
global regexes do. -/

/-- Decimal digit character. -/
def digitChar : Nat → Char
  | 0 => '0'
  | 1 => '1'
  | 2 => '2'
  | 3 => '3'
  | 4 => '4'
  | 5 => '5'
  | 6 => '6'
  | 7 => '7'
  | 8 => '8'
  | 9 => '9'
  | _ => '0'

/-- Fuelled decimal rendering (the fuel bounds the number of digits). -/
def natDigitsAux : Nat → Nat → List Char
  | 0, _ => []
  | fuel + 1, n =>
    if n = 0 then [] else natDigitsAux fuel (n / 10) ++ [digitChar (n % 10)]

/-- Decimal digit list of `n` (empty for 0). -/
def natDigits (n : Nat) : List Char :=
  natDigitsAux n n

/-- JS template-literal rendering of a number. -/
def natToStr (n : Nat) : String :=
  if n = 0 then "0" else ⟨natDigits n⟩

/-- `parseInt` on a digit string. -/
def digitsToNat (l : List Char) : Nat :=
  l.foldl (fun a c => 10 * a + (c.toNat - 48)) 0

/-- One attempted match of `lit(\d+)"` at the head of `l`: on success,
the parsed number and the text following the closing quote. -/
def tryLit (lit l : List Char) : Option (Nat × List Char) :=
  if lit.isPrefixOf l then
    let rest := l.drop lit.length
    let ds := rest.takeWhile Char.isDigit
    let rs := rest.dropWhile Char.isDigit
    if ds ≠ [] ∧ rs.head? = some '"' then some (digitsToNat ds, rs.tail)
    else none
  else none

/-- Global scan for `lit(\d+)"`, with explicit fuel to keep the recursion
structural (hence kernel-computable). -/
def litScanAux (lit : List Char) : Nat → List Char → List Nat
  | 0, _ => []
  | _ + 1, [] => []
  | fuel + 1, c :: rest =>
    match tryLit lit (c :: rest) with
    | some (n, r) => n :: litScanAux lit fuel r
    | none => litScanAux lit fuel rest

/-- All matches of the global regex `lit(\d+)"` over `l`, left to right. -/
def litScan (lit l : List Char) : List Nat :=
  litScanAux lit l.length l

/-- Characters that can occur inside a `lit(\d+)"` match. -/
def isLitPat (lit : List Char) (c : Char) : Bool :=
  lit.contains c || c.isDigit || c == '"'

/-- `pid="` — the literal prefix of the property-index regex. -/
def pidLit : List Char := ['p', 'i', 'd', '=', '"']

/-- `Id="rId` — the literal prefix of the relationship-id regex. -/
def ridLit : List Char := ['I', 'd', '=', '"', 'r', 'I', 'd']

/-- The property indices matched by `pid="(\d+)"` over a custom-properties
part. -/
def pidMatches (s : String) : List Nat := litScan pidLit s.data

/-- The relationship numbers matched by `Id="rId(\d+)"` over a
relationships part. -/
def ridMatches (s : String) : List Nat := litScan ridLit s.data

/-- `nextPid` of `addCustomPropertyToExisting` (lines 221-227): default 2,
else one greater than the maximum matched pid. -/
def nextPid (content : String) : Nat :=
  match pidMatches content with
  | [] => 2
  | p :: ps => ps.foldl max p + 1

/-- `nextRid` of `addCustomPropertyToNew` (lines 316-322): default 1, else
one greater than the maximum matched rId number. -/
def nextRid (rels : String) : Nat :=
  match ridMatches rels with
  | [] => 1
  | p :: ps => ps.foldl max p + 1

/-- JS `String.replace` restricted to a replacement without `$`-escape
sequences, where the replacement text is inserted literally: replace the
first occurrence of `pat`, if any.  `ensureContentTypes` and `ensureRels`
call `replace` with fixed `$`-free replacement strings, where this
literal model is exact; `replaceFirstJS` below is the general model. -/
def replaceFirstL (pat repl : List Char) : List Char → List Char
  | [] => []
  | c :: rest =>
    if pat.isPrefixOf (c :: rest) then repl ++ (c :: rest).drop pat.length
    else c :: replaceFirstL pat repl rest

/-- `String`-level first-occurrence replacement, literal replacement. -/
def replaceFirst (s pat repl : String) : String :=
  ⟨replaceFirstL pat.data repl.data s.data⟩

/-- The backquote character (code 96). -/
def backquoteChar : Char := Char.ofNat 96

/-- The single-quote character (code 39). -/
def squoteChar : Char := Char.ofNat 39

/-- JS GetSubstitution for a string pattern (zero capture groups): in the
replacement string, `$$` expands to `$`, `$&` to the matched text, a `$`
followed by a backquote to the text before the match, a `$` followed by a
single quote to the text after it; any other `$` stands for itself.  The
replacement is processed left to right. -/
def expandRepl (matched before after : List Char) : List Char → List Char
  | [] => []
  | [c] => if c = '$' then ['$'] else [c]
  | c :: d :: r =>
    if c = '$' then
      if d = '$' then '$' :: expandRepl matched before after r
      else if d = '&' then matched ++ expandRepl matched before after r
      else if d = backquoteChar then before ++ expandRepl matched before after r
      else if d = squoteChar then after ++ expandRepl matched before after r
      else '$' :: expandRepl matched before after (d :: r)
    else c :: expandRepl matched before after (d :: r)

/-- Split at the first occurrence of `pat`: the text strictly before the
match and the text strictly after it, or `none` when `pat` does not
occur. -/
def splitFirstL (pat : List Char) : List Char → Option (List Char × List Char)
  | [] => if pat = [] then some ([], []) else none
  | c :: rest =>
    if pat.isPrefixOf (c :: rest) then some ([], (c :: rest).drop pat.length)
    else (splitFirstL pat rest).map (fun p => (c :: p.1, p.2))

/-- JS `String.replace` with a string pattern: replace the first
occurrence of `pat`, if any, by the replacement with its `$`-escape
sequences expanded against the match. -/
def replaceFirstJSL (pat repl l : List Char) : List Char :=
  match splitFirstL pat l with
  | none => l
  | some (b, a) => b ++ expandRepl pat b a repl ++ a

/-- `String`-level JS `replace`. -/
def replaceFirstJS (s pat repl : String) : String :=
  ⟨replaceFirstJSL pat.data repl.data s.data⟩

/-- JS `String.includes`. -/
def containsSubstrL (pat : List Char) : List Char → Bool
  | [] => pat.isPrefixOf []
  | c :: rest => pat.isPrefixOf (c :: rest) || containsSubstrL pat rest

/-- `String`-level `includes`. -/
def containsSubstr (s pat : String) : Bool :=
  containsSubstrL pat.data s.data

/-! ## Container patcher: the ZIP container and the three methods -/

/-- A ZIP container as adm-zip exposes it: named entries in order.
Contents are carried as strings (UTF-8 text for the parts the patcher
touches, opaque data for everything else). -/
abbrev Zip := List (String × String)

/-- `zip.getEntry(name)` (first entry of that name). -/
def zipLookup (z : Zip) (name : String) : Option String :=
  (z.find? (fun e => e.1 = name)).map (fun e => e.2)

/-- `zip.updateFile(name, content)`: replace the content of the named
entry in place. -/
def zipUpdate (z : Zip) (name content : String) : Zip :=
  z.map (fun e => if e.1 = name then (name, content) else e)

/-- `zip.addFile(name, content)`: append a new entry. -/
def zipAdd (z : Zip) (name content : String) : Zip :=
  z ++ [(name, content)]

/-- The fixed `fmtid` GUID of the custom property. -/
def fmtid : String := "\x7bD5CDD505-2E9C-101B-9397-08002B2CF9AE\x7d"

/-- The `<property>` element the patcher builds (line 230 and line 261):
the template identifier carried as a `vt:lpwstr` (wide-string) value. -/
def mkProperty (pid : Nat) (templateId : String) : String :=
  "<property fmtid=\"" ++ fmtid ++ "\" pid=\"" ++ natToStr pid
    ++ "\" name=\"SharedoTemplateId__0\"><vt:lpwstr>" ++ templateId
    ++ "</vt:lpwstr></property>"

/-- The closing tag of the custom-properties root. -/
def closePropsTag : String := "</Properties>"

/-- The `$`-free part of the patch replacement that precedes the template
identifier. -/
def propHead (pid : Nat) : String :=
  "    " ++ "<property fmtid=\"" ++ fmtid ++ "\" pid=\"" ++ natToStr pid
    ++ "\" name=\"SharedoTemplateId__0\"><vt:lpwstr>"

/-- The `$`-free part of the patch replacement that follows the template
identifier. -/
def propTail : String := "</vt:lpwstr></property>" ++ "\n" ++ closePropsTag

/-- The string transformation at the heart of
`addCustomPropertyToExisting` (line 233): JS `replace`, splicing one new
property element, carrying `templateId` and the next free pid, in front
of the first `</Properties>`.  The replacement string embeds the raw
template identifier, so JS `$`-escape expansion applies to it. -/
def patchCustomXml (content templateId : String) : String :=
  replaceFirstJS content closePropsTag
    ("    " ++ mkProperty (nextPid content) templateId ++ "\n" ++ closePropsTag)

/-- `RegistryService.addCustomPropertyToExisting` (lines 205-240): read
`docProps/custom.xml`, compute the next pid from the existing matches,
and splice one new property element in front of the first
`</Properties>`. -/
def addCustomPropertyToExisting (z : Zip) (templateId : String) :
    Except String Zip :=
  match zipLookup z "docProps/custom.xml" with
  | none =>
    .error "custom.xml does not exist - use method for creating new custom.xml"
  | some content =>
    .ok (zipUpdate z "docProps/custom.xml" (patchCustomXml content templateId))

/-- The header of the synthesized custom-properties part (line 259-260). -/
def customXmlHeader : String :=
  "<?xml version=\"1.0\" encoding=\"UTF-8\" standalone=\"yes\"?>\n<Properties xmlns=\"http://schemas.openxmlformats.org/officeDocument/2006/custom-properties\" xmlns:vt=\"http://schemas.openxmlformats.org/officeDocument/2006/docPropsVTypes\">\n"

/-- A custom-properties part holding exactly the given `(pid, templateId)`
properties, in the patcher's output format. -/
def renderProperties (props : List (Nat × String)) : String :=
  customXmlHeader
    ++ String.join (props.map (fun p => "    " ++ mkProperty p.1 p.2 ++ "\n"))
    ++ closePropsTag

/-- The custom-properties part synthesized by `addCustomPropertyToNew`
(lines 259-262). -/
def newCustomXml (templateId : String) : String :=
  customXmlHeader ++ "    " ++ mkProperty 2 templateId ++ "\n" ++ closePropsTag

/-- The content-types manifest synthesized when `[Content_Types].xml` is
absent (lines 272-280). -/
def defaultContentTypes : String :=
  "<?xml version=\"1.0\" encoding=\"UTF-8\" standalone=\"yes\"?>\n<Types xmlns=\"http://schemas.openxmlformats.org/package/2006/content-types\">\n    <Default Extension=\"rels\" ContentType=\"application/vnd.openxmlformats-package.relationships+xml\"/>\n    <Default Extension=\"xml\" ContentType=\"application/xml\"/>\n    <Override PartName=\"/word/document.xml\" ContentType=\"application/vnd.openxmlformats-officedocument.wordprocessingml.document.main+xml\"/>\n    <Override PartName=\"/docProps/core.xml\" ContentType=\"application/vnd.openxmlformats-package.core-properties+xml\"/>\n    <Override PartName=\"/docProps/app.xml\" ContentType=\"application/vnd.openxmlformats-officedocument.extended-properties+xml\"/>\n    <Override PartName=\"/docProps/custom.xml\" ContentType=\"application/vnd.openxmlformats-officedocument.custom-properties+xml\"/>\n</Types>"

/-- The override entry registering the custom-properties MIME type
(line 289). -/
def customOverride : String :=
  "<Override PartName=\"/docProps/custom.xml\" ContentType=\"application/vnd.openxmlformats-officedocument.custom-properties+xml\"/>"

/-- The relationships manifest synthesized when `_rels/.rels` is absent
(lines 302-308). -/
def defaultRels : String :=
  "<?xml version=\"1.0\" encoding=\"UTF-8\" standalone=\"yes\"?>\n<Relationships xmlns=\"http://schemas.openxmlformats.org/package/2006/relationships\">\n    <Relationship Id=\"rId1\" Type=\"http://schemas.openxmlformats.org/officeDocument/2006/relationships/officeDocument\" Target=\"word/document.xml\"/>\n    <Relationship Id=\"rId2\" Type=\"http://schemas.openxmlformats.org/package/2006/relationships/metadata/core-properties\" Target=\"docProps/core.xml\"/>\n    <Relationship Id=\"rId3\" Type=\"http://schemas.openxmlformats.org/officeDocument/2006/relationships/extended-properties\" Target=\"docProps/app.xml\"/>\n    <Relationship Id=\"rId4\" Type=\"http://schemas.openxmlformats.org/officeDocument/2006/relationships/custom-properties\" Target=\"docProps/custom.xml\"/>\n</Relationships>"

/-- The relationship element appended for the custom-properties part
(line 325). -/
def mkRelationship (rid : Nat) : String :=
  "<Relationship Id=\"rId" ++ natToStr rid
    ++ "\" Type=\"http://schemas.openxmlformats.org/officeDocument/2006/relationships/custom-properties\" Target=\"docProps/custom.xml\"/>"

/-- Step 3 of `addCustomPropertyToNew` (lines 267-295): register the
custom-properties content type, unless the manifest already mentions
`docProps/custom.xml` (a substring check). -/
def ensureContentTypes (z1 : Zip) : Zip :=
  match zipLookup z1 "[Content_Types].xml" with
  | none => zipAdd z1 "[Content_Types].xml" defaultContentTypes
  | some ct =>
    if containsSubstr ct "docProps/custom.xml" then z1
    else zipUpdate z1 "[Content_Types].xml"
      (replaceFirst ct "</Types>" ("    " ++ customOverride ++ "\n</Types>"))

/-- Step 4 of `addCustomPropertyToNew` (lines 297-331): link the
custom-properties part from `_rels/.rels` with the next free rId, unless
the manifest already contains `custom-properties` (a substring check). -/
def ensureRels (z2 : Zip) : Zip :=
  match zipLookup z2 "_rels/.rels" with
  | none => zipAdd z2 "_rels/.rels" defaultRels
  | some rels =>
    if containsSubstr rels "custom-properties" then z2
    else zipUpdate z2 "_rels/.rels"
      (replaceFirst rels "</Relationships>"
        ("    " ++ mkRelationship (nextRid rels) ++ "\n</Relationships>"))

/-- `RegistryService.addCustomPropertyToNew` (lines 245-335): add a fresh
`docProps/custom.xml` with one property (pid 2); register its content type
(synthesizing or appending unless the manifest already mentions
`docProps/custom.xml`); link it from `_rels/.rels` (synthesizing or
appending with the next free rId unless the manifest already contains
`custom-properties`). -/
def addCustomPropertyToNew (z : Zip) (templateId : String) :
    Except String Zip :=
  match zipLookup z "docProps/custom.xml" with
  | some _ =>
    .error "custom.xml already exists - use method for modifying existing custom.xml"
  | none =>
    .ok (ensureRels (ensureContentTypes
      (zipAdd z "docProps/custom.xml" (newCustomXml templateId))))

/-- `RegistryService.addCustomPropertyToDocx` (lines 186-200): dispatch on
whether `docProps/custom.xml` exists. -/
def addCustomPropertyToDocx (z : Zip) (templateId : String) :
    Except String Zip :=
  match zipLookup z "docProps/custom.xml" with
  | some _ => addCustomPropertyToExisting z templateId
  | none => addCustomPropertyToNew z templateId

/-! ## Scanner lemmas -/

theorem digitChar_isDigit : ∀ d, (digitChar d).isDigit = true
  | 0 | 1 | 2 | 3 | 4 | 5 | 6 | 7 | 8 | 9 => rfl
  | _ + 10 => rfl

theorem digitChar_val : ∀ d, d < 10 → (digitChar d).toNat - 48 = d
  | 0, _ | 1, _ | 2, _ | 3, _ | 4, _ | 5, _ | 6, _ | 7, _ | 8, _ | 9, _ => rfl
  | d + 10, h => absurd h (by omega)

theorem natDigitsAux_foldl (a₀ : Nat) :
    ∀ fuel n, n ≤ fuel →
      (natDigitsAux fuel n).foldl (fun a c => 10 * a + (c.toNat - 48)) a₀ =
        if n = 0 then a₀ else a₀ * 10 ^ (natDigitsAux fuel n).length + n := by
  intro fuel
  induction fuel with
  | zero =>
    intro n hn
    interval_cases n
    simp [natDigitsAux]
  | succ fuel ih =>
    intro n hn
    by_cases h0 : n = 0
    · simp [natDigitsAux, h0]
    · have hdiv : n / 10 ≤ fuel := by omega
      have hrec := ih (n / 10) hdiv
      simp only [natDigitsAux, h0, if_false, List.foldl_append, List.foldl_cons,
        List.foldl_nil, List.length_append, List.length_singleton]
      rw [hrec]
      have hmod : (digitChar (n % 10)).toNat - 48 = n % 10 :=
        digitChar_val _ (Nat.mod_lt n (by omega))
      by_cases hq : n / 10 = 0
      · have : n < 10 := by omega
        simp only [hq, if_true, hmod]
        have : natDigitsAux fuel 0 = [] := by cases fuel <;> rfl
        simp [this]
        omega
      · simp only [hq, if_false, hmod]
        rw [pow_succ]
        have := Nat.div_add_mod n 10
        ring_nf
        omega

theorem digitsToNat_natDigits (n : Nat) : digitsToNat (natDigits n) = n := by
  unfold digitsToNat natDigits
  rw [natDigitsAux_foldl 0 n n le_rfl]
  by_cases h0 : n = 0
  · simp [h0]
  · simp [h0]

theorem natDigits_ne_nil {n : Nat} (h : n ≠ 0) : natDigits n ≠ [] := by
  unfold natDigits
  cases n with
  | zero => exact absurd rfl h
  | succ m =>
    simp only [natDigitsAux, Nat.succ_ne_zero, if_false]
    intro hc
    exact absurd (List.append_eq_nil.mp hc).2 (by simp)

theorem natDigits_all_digit (n : Nat) : ∀ c ∈ natDigits n, c.isDigit = true := by
  unfold natDigits
  generalize hfuel : n = fuel
  rw [← hfuel]
  clear hfuel
  suffices H : ∀ fuel m, ∀ c ∈ natDigitsAux fuel m, c.isDigit = true by
    exact H n n
  intro fuel
  induction fuel with
  | zero => intro m c hc; simp [natDigitsAux] at hc
  | succ fuel ih =>
    intro m c hc
    by_cases h0 : m = 0
    · simp [natDigitsAux, h0] at hc
    · simp only [natDigitsAux, h0, if_false, List.mem_append,
        List.mem_singleton] at hc
      rcases hc with hc | rfl
      · exact ih _ c hc
      · exact digitChar_isDigit _

theorem takeWhile_prefix_append {p : Char → Bool} {ds : List Char}
    (h : ∀ c ∈ ds, p c = true) {x : Char} (hx : p x = false) (r : List Char) :
    (ds ++ x :: r).takeWhile p = ds := by
  induction ds with
  | cons a as ih =>
    obtain ⟨ha, has⟩ := List.forall_mem_cons.mp h
    rw [List.cons_append, List.takeWhile_cons, ha, if_pos rfl, ih has]
  | nil =>
    rw [List.nil_append, List.takeWhile_cons, hx]
    exact if_neg (by simp)

theorem dropWhile_prefix_append {p : Char → Bool} {ds : List Char}
    (h : ∀ c ∈ ds, p c = true) {x : Char} (hx : p x = false) (r : List Char) :
    (ds ++ x :: r).dropWhile p = x :: r := by
  induction ds with
  | cons a as ih =>
    obtain ⟨ha, has⟩ := List.forall_mem_cons.mp h
    rw [List.cons_append, List.dropWhile_cons, ha, if_pos rfl]
    exact ih has
  | nil =>
    rw [List.nil_append, List.dropWhile_cons, hx]
    exact if_neg (by simp)

theorem tryLit_eq_some {lit l : List Char} {n : Nat} {r : List Char}
    (h : tryLit lit l = some (n, r)) :
    ∃ ds, l = lit ++ ds ++ '"' :: r ∧ ds ≠ [] ∧
      (∀ c ∈ ds, c.isDigit = true) ∧ n = digitsToNat ds := by
  simp only [tryLit] at h
  split at h
  case isFalse => exact absurd h (by simp)
  case isTrue hp =>
    obtain ⟨s, hs⟩ := List.isPrefixOf_iff_prefix.mp hp
    subst hs
    rw [List.drop_left] at h
    split at h
    case isFalse => exact absurd h (by simp)
    case isTrue hc =>
      obtain ⟨hne, hq⟩ := hc
      injection h with h
      injection h with h1 h2
      cases hd : s.dropWhile Char.isDigit with
      | nil => rw [hd] at hq; simp at hq
      | cons x xs =>
        rw [hd] at hq h2
        simp only [List.head?_cons, Option.some.injEq] at hq
        simp only [List.tail_cons] at h2
        refine ⟨s.takeWhile Char.isDigit, ?_, hne,
          fun c hc => List.mem_takeWhile_imp hc, h1.symm⟩
        rw [List.append_assoc]
        congr 1
        conv_lhs => rw [← List.takeWhile_append_dropWhile Char.isDigit s]
        rw [hd, hq, h2]

theorem tryLit_intro (lit : List Char) {ds : List Char} (r : List Char)
    (hne : ds ≠ []) (hdig : ∀ c ∈ ds, c.isDigit = true) :
    tryLit lit (lit ++ ds ++ '"' :: r) = some (digitsToNat ds, r) := by
  simp only [tryLit]
  have hp : lit.isPrefixOf (lit ++ ds ++ '"' :: r) = true := by
    rw [List.isPrefixOf_iff_prefix, List.append_assoc]
    exact List.prefix_append lit (ds ++ '"' :: r)
  rw [if_pos hp, List.append_assoc, List.drop_left]
  have hq : Char.isDigit '"' = false := rfl
  rw [takeWhile_prefix_append hdig hq r, dropWhile_prefix_append hdig hq r]
  rw [if_pos ⟨hne, rfl⟩]
  rfl

theorem tryLit_length {lit l : List Char} {n : Nat} {r : List Char}
    (h : tryLit lit l = some (n, r)) : r.length < l.length := by
  obtain ⟨ds, rfl, hne, -, -⟩ := tryLit_eq_some h
  simp only [List.length_append, List.length_cons]
  omega

theorem litScanAux_stable (lit : List Char) :
    ∀ fuel l, l.length ≤ fuel → litScanAux lit fuel l = litScan lit l := by
  intro fuel
  induction fuel using Nat.strong_induction_on with
  | _ fuel ih =>
    intro l hl
    match fuel, l with
    | 0, l =>
      have : l = [] := List.eq_nil_of_length_eq_zero (Nat.le_zero.mp hl)
      subst this
      rfl
    | fuel + 1, [] => rfl
    | fuel + 1, c :: rest =>
      have hrest : rest.length ≤ fuel := by
        simpa using Nat.le_of_succ_le_succ hl
      show litScanAux lit (fuel + 1) (c :: rest) =
        litScanAux lit (c :: rest).length (c :: rest)
      cases htry : tryLit lit (c :: rest) with
      | some nr =>
        obtain ⟨n, r⟩ := nr
        have hr : r.length < rest.length + 1 := by
          simpa using tryLit_length htry
        have e1 : litScanAux lit fuel r = litScan lit r :=
          ih fuel (Nat.lt_succ_self fuel) r (by omega)
        have e2 : litScanAux lit rest.length r = litScan lit r :=
          ih rest.length (by omega) r (by omega)
        simp only [litScanAux, List.length_cons, htry]
        rw [e1, e2]
      | none =>
        have e1 : litScanAux lit fuel rest = litScan lit rest :=
          ih fuel (Nat.lt_succ_self fuel) rest hrest
        have e2 : litScanAux lit rest.length rest = litScan lit rest := rfl
        simp only [litScanAux, List.length_cons, htry]
        rw [e1, e2]

theorem litScan_nil (lit : List Char) : litScan lit [] = [] := rfl

theorem litScan_cons_some {lit : List Char} {c : Char} {rest : List Char}
    {n : Nat} {r : List Char} (h : tryLit lit (c :: rest) = some (n, r)) :
    litScan lit (c :: rest) = n :: litScan lit r := by
  show litScanAux lit (c :: rest).length (c :: rest) = _
  simp only [List.length_cons, litScanAux, h]
  have hr : r.length ≤ rest.length := by
    have := tryLit_length h
    simp only [List.length_cons] at this
    omega
  rw [litScanAux_stable lit rest.length r hr]

theorem litScan_cons_none {lit : List Char} {c : Char} {rest : List Char}
    (h : tryLit lit (c :: rest) = none) :
    litScan lit (c :: rest) = litScan lit rest := by
  show litScanAux lit (c :: rest).length (c :: rest) = _
  simp only [List.length_cons, litScanAux, h]
  rfl

theorem tryLit_append_some {lit l : List Char} {n : Nat} {r : List Char}
    (Y : List Char) (h : tryLit lit l = some (n, r)) :
    tryLit lit (l ++ Y) = some (n, r ++ Y) := by
  obtain ⟨ds, rfl, hne, hdig, rfl⟩ := tryLit_eq_some h
  have := tryLit_intro lit (r ++ Y) hne hdig
  simpa [List.append_assoc] using this

theorem tryLit_append_none {lit l : List Char} {Y : List Char}
    (h : tryLit lit l = none)
    (hY : ∀ c, Y.head? = some c → isLitPat lit c = false) :
    tryLit lit (l ++ Y) = none := by
  cases Y with
  | nil => simpa using h
  | cons y Y' =>
    have hy : isLitPat lit y = false := hY y rfl
    simp only [isLitPat, Bool.or_eq_false_iff] at hy
    obtain ⟨⟨hyc, hyd⟩, hyq⟩ := hy
    have hyne : y ≠ '"' := by
      intro hcon
      subst hcon
      simp at hyq
    by_cases hp : lit.isPrefixOf l
    · obtain ⟨s, hs⟩ := List.isPrefixOf_iff_prefix.mp hp
      subst hs
      have hp2 : lit.isPrefixOf (lit ++ (s ++ y :: Y')) = true := by
        rw [List.isPrefixOf_iff_prefix]
        exact List.prefix_append lit (s ++ y :: Y')
      simp only [tryLit, List.drop_left, hp, if_true] at h
      simp only [tryLit, List.append_assoc, hp2, if_true, List.drop_left]
      cases hd : s.dropWhile Char.isDigit with
      | nil =>
        have hall : ∀ c ∈ s, Char.isDigit c = true :=
          List.dropWhile_eq_nil_iff.mp hd
        rw [takeWhile_prefix_append hall hyd Y',
          dropWhile_prefix_append hall hyd Y']
        simp [hyne]
      | cons x xs =>
        have hx : Char.isDigit x = false := by
          have h2 := List.head_dropWhile_not Char.isDigit s (by simp [hd])
          simpa only [hd, List.head_cons] using h2
        have hsplit : s = s.takeWhile Char.isDigit ++ x :: xs := by
          conv_lhs => rw [← List.takeWhile_append_dropWhile Char.isDigit s]
          rw [hd]
        have htw : ∀ c ∈ s.takeWhile Char.isDigit, Char.isDigit c = true :=
          fun c hc => List.mem_takeWhile_imp hc
        rw [hsplit, List.append_assoc, List.cons_append]
        rw [takeWhile_prefix_append htw hx (xs ++ y :: Y'),
          dropWhile_prefix_append htw hx (xs ++ y :: Y')]
        rw [hsplit, takeWhile_prefix_append htw hx xs,
          dropWhile_prefix_append htw hx xs] at h
        split at h
        next => exact absurd h (by simp)
        next hcond =>
          rw [if_neg]
          intro hcon
          exact hcond ⟨hcon.1, by simpa using hcon.2⟩
    · simp only [tryLit, hp, Bool.false_eq_true, if_false]
      rw [if_neg]
      intro hp2
      obtain ⟨t, ht⟩ := List.isPrefixOf_iff_prefix.mp hp2
      rcases le_or_lt lit.length l.length with hle | hlt
      · apply hp
        rw [List.isPrefixOf_iff_prefix]
        have : lit = (l ++ y :: Y').take lit.length := by
          rw [← ht, List.take_left]
        rw [List.take_append_eq_append_take] at this
        rw [Nat.sub_eq_zero_of_le hle, List.take_zero, List.append_nil] at this
        rw [List.prefix_iff_eq_take]
        exact this
      · have : lit = (l ++ y :: Y').take lit.length := by
          rw [← ht, List.take_left]
        rw [List.take_append_eq_append_take] at this
        rw [List.take_of_length_le (Nat.le_of_lt hlt)] at this
        have hk : lit.length - l.length = (lit.length - l.length - 1) + 1 := by
          omega
        rw [hk, List.take_succ_cons] at this
        have hymem : y ∈ lit := by
          rw [this]
          simp
        have hcontains : (lit.contains y = true) ↔ y ∈ lit := by
          simp [List.contains]
        have hnot : lit.contains y ≠ true := by
          simp only [hyc]
          decide
        exact hnot (hcontains.mpr hymem)

/-- The global scan distributes over concatenation whenever no match can
straddle the boundary, which is guaranteed as soon as the right part does
not open with a character that can occur inside a match. -/
theorem litScan_append {lit : List Char} (Y : List Char)
    (hY : ∀ c, Y.head? = some c → isLitPat lit c = false) (l : List Char) :
    litScan lit (l ++ Y) = litScan lit l ++ litScan lit Y := by
  suffices H : ∀ fuel l, l.length ≤ fuel →
      litScan lit (l ++ Y) = litScan lit l ++ litScan lit Y from
    H l.length l le_rfl
  intro fuel
  induction fuel using Nat.strong_induction_on with
  | _ fuel ih =>
    intro l hl
    cases l with
    | nil => simp [litScan_nil]
    | cons c rest =>
      cases fuel with
      | zero => simp at hl
      | succ fuel =>
        have hrest : rest.length ≤ fuel := by
          simp only [List.length_cons] at hl
          omega
        rw [List.cons_append]
        cases htry : tryLit lit (c :: rest) with
        | some nr =>
          obtain ⟨n, r⟩ := nr
          have htry2 : tryLit lit (c :: (rest ++ Y)) = some (n, r ++ Y) := by
            have := tryLit_append_some Y htry
            simpa using this
          rw [litScan_cons_some htry2, litScan_cons_some htry]
          have hr : r.length ≤ fuel := by
            have := tryLit_length htry
            simp only [List.length_cons] at this
            omega
          rw [ih fuel (Nat.lt_succ_self fuel) r hr]
          simp
        | none =>
          have htry2 : tryLit lit (c :: (rest ++ Y)) = none := by
            have := tryLit_append_none htry hY
            simpa using this
          rw [litScan_cons_none htry2, litScan_cons_none htry]
          exact ih fuel (Nat.lt_succ_self fuel) rest hrest

/-- Scanning skips a head character that cannot start a match. -/
theorem litScan_cons_skip {lit : List Char} (hlit : lit ≠ []) {c : Char}
    (hc : isLitPat lit c = false) (rest : List Char) :
    litScan lit (c :: rest) = litScan lit rest := by
  apply litScan_cons_none
  cases hlit2 : lit with
  | nil => exact absurd hlit2 hlit
  | cons a as =>
    simp only [tryLit]
    rw [if_neg]
    intro hp
    obtain ⟨t, ht⟩ := List.isPrefixOf_iff_prefix.mp hp
    simp only [List.cons_append] at ht
    injection ht with h1 h2
    subst h1
    rw [hlit2] at hc
    simp only [isLitPat, Bool.or_eq_false_iff] at hc
    obtain ⟨⟨hyc, -⟩, -⟩ := hc
    simp [List.contains] at hyc

theorem litScan_of_tryLit_some {lit l : List Char} {n : Nat} {r : List Char}
    (h : tryLit lit l = some (n, r)) :
    litScan lit l = n :: litScan lit r := by
  cases l with
  | nil =>
    obtain ⟨ds, hds, hne, -, -⟩ := tryLit_eq_some h
    exact absurd hds.symm (by simp)
  | cons c rest => exact litScan_cons_some h

theorem litScan_single (lit : List Char) {n : Nat} (hn : n ≠ 0) :
    litScan lit (lit ++ natDigits n ++ ['"']) = [n] := by
  have h := tryLit_intro lit [] (natDigits_ne_nil hn) (natDigits_all_digit n)
  rw [litScan_of_tryLit_some h, litScan_nil, digitsToNat_natDigits]

theorem replaceFirstL_split {pat repl : List Char} (hpat : pat ≠ []) :
    ∀ A B, (∀ i < A.length,
        pat.isPrefixOf ((A ++ pat ++ B).drop i) = false) →
      replaceFirstL pat repl (A ++ pat ++ B) = A ++ repl ++ B := by
  intro A
  induction A with
  | nil =>
    intro B _
    cases pat with
    | nil => exact absurd rfl hpat
    | cons p ps =>
      simp only [List.nil_append, List.cons_append]
      have hp : (p :: ps).isPrefixOf (p :: (ps ++ B)) = true := by
        rw [List.isPrefixOf_iff_prefix]
        exact ⟨B, by simp⟩
      simp only [replaceFirstL, hp, if_true]
      congr 1
      rw [show p :: (ps ++ B) = (p :: ps) ++ B from rfl, List.drop_left]
  | cons a A' ih =>
    intro B h
    have h0 : pat.isPrefixOf (a :: (A' ++ pat ++ B)) = false := by
      have := h 0 (by simp)
      simpa using this
    have hsh : ∀ i < A'.length,
        pat.isPrefixOf ((A' ++ pat ++ B).drop i) = false := by
      intro i hi
      have := h (i + 1) (by simp; omega)
      simpa [List.cons_append] using this
    have hstep : replaceFirstL pat repl (a :: (A' ++ pat ++ B)) =
        a :: replaceFirstL pat repl (A' ++ pat ++ B) := by
      simp only [replaceFirstL, h0, Bool.false_eq_true, if_false]
    rw [List.cons_append, List.cons_append, hstep, ih B hsh]
    simp

theorem le_foldl_max (ps : List Nat) :
    ∀ p, p ≤ ps.foldl max p ∧ ∀ q ∈ ps, q ≤ ps.foldl max p := by
  induction ps with
  | nil => intro p; exact ⟨le_rfl, by simp⟩
  | cons q qs ih =>
    intro p
    obtain ⟨h1, h2⟩ := ih (max p q)
    refine ⟨le_trans (le_max_left p q) h1, ?_⟩
    intro x hx
    rcases List.mem_cons.mp hx with he | hx
    · rw [he]
      exact le_trans (le_max_right p q) h1
    · exact h2 x hx

theorem foldl_max_mem (ps : List Nat) :
    ∀ p, ps.foldl max p ∈ p :: ps := by
  induction ps with
  | nil => intro p; simp
  | cons q qs ih =>
    intro p
    have h := ih (max p q)
    simp only [List.foldl_cons]
    rcases List.mem_cons.mp h with he | hin
    · rw [he]
      rcases max_choice p q with hm | hm <;> rw [hm]
      · exact List.mem_cons_self _ _
      · exact List.mem_cons_of_mem _ (List.mem_cons_self _ _)
    · exact List.mem_cons_of_mem _ (List.mem_cons_of_mem _ hin)

theorem nextPid_cons {s : String} {p : Nat} {ps : List Nat}
    (hm : pidMatches s = p :: ps) : nextPid s = ps.foldl max p + 1 := by
  unfold nextPid
  rw [hm]

theorem nextPid_pos (s : String) : 1 ≤ nextPid s := by
  cases hm : pidMatches s with
  | nil =>
    have : nextPid s = 2 := by unfold nextPid; rw [hm]
    omega
  | cons p ps =>
    have := nextPid_cons hm
    omega

theorem nextPid_gt_of_mem {s : String} {q : Nat}
    (h : q ∈ pidMatches s) : q < nextPid s := by
  cases hm : pidMatches s with
  | nil => rw [hm] at h; simp at h
  | cons p ps =>
    rw [hm] at h
    rw [nextPid_cons hm]
    rcases List.mem_cons.mp h with rfl | h
    · have := (le_foldl_max ps q).1
      omega
    · have := (le_foldl_max ps p).2 q h
      omega

theorem nextPid_eq_max_succ {s : String} (h : pidMatches s ≠ []) :
    ∃ q ∈ pidMatches s, nextPid s = q + 1 ∧
      ∀ x ∈ pidMatches s, x ≤ q := by
  cases hm : pidMatches s with
  | nil => exact absurd hm h
  | cons p ps =>
    refine ⟨ps.foldl max p, ?_, nextPid_cons hm, ?_⟩
    · exact foldl_max_mem ps p
    · intro x hx
      rcases List.mem_cons.mp hx with he | hx
      · rw [he]
        exact (le_foldl_max ps p).1
      · exact (le_foldl_max ps p).2 x hx

theorem string_data_eq {s t : String} (h : s.data = t.data) : s = t := by
  cases s
  cases t
  exact congrArg String.mk h

theorem replaceFirst_data (s pat repl : String) (A B : List Char)
    (hpat : pat.data ≠ [])
    (hs : s.data = A ++ pat.data ++ B)
    (hfirst : ∀ i < A.length,
      pat.data.isPrefixOf (s.data.drop i) = false) :
    (replaceFirst s pat repl).data = A ++ repl.data ++ B := by
  show replaceFirstL pat.data repl.data s.data = _
  rw [hs]
  apply replaceFirstL_split hpat
  intro i hi
  have := hfirst i hi
  rwa [hs] at this

theorem expandRepl_cons_ne {m b a : List Char} {c : Char} (r : List Char)
    (hc : c ≠ '$') :
    expandRepl m b a (c :: r) = c :: expandRepl m b a r := by
  cases r with
  | nil => simp [expandRepl, hc]
  | cons d r2 => simp [expandRepl, hc]

theorem expandRepl_no_dollar (m b a : List Char) :
    ∀ r, (∀ c ∈ r, c ≠ '$') → expandRepl m b a r = r := by
  intro r
  induction r with
  | nil => intro _; rfl
  | cons c r2 ih =>
    intro h
    rw [expandRepl_cons_ne r2 (h c (List.mem_cons_self c r2))]
    rw [ih (fun x hx => h x (List.mem_cons_of_mem c hx))]

theorem expandRepl_append_left (m b a : List Char) :
    ∀ xs ys, (∀ c ∈ xs, c ≠ '$') →
      expandRepl m b a (xs ++ ys) = xs ++ expandRepl m b a ys := by
  intro xs
  induction xs with
  | nil => intro ys _; simp
  | cons c xs2 ih =>
    intro ys h
    rw [List.cons_append, expandRepl_cons_ne _ (h c (List.mem_cons_self c xs2))]
    rw [ih ys (fun x hx => h x (List.mem_cons_of_mem c hx)), List.cons_append]

theorem splitFirstL_split {pat : List Char} (hpat : pat ≠ []) :
    ∀ A B, (∀ i < A.length,
        pat.isPrefixOf ((A ++ pat ++ B).drop i) = false) →
      splitFirstL pat (A ++ pat ++ B) = some (A, B) := by
  intro A
  induction A with
  | nil =>
    intro B _
    cases pat with
    | nil => exact absurd rfl hpat
    | cons p ps =>
      simp only [List.nil_append, List.cons_append]
      have hp : (p :: ps).isPrefixOf (p :: (ps ++ B)) = true := by
        rw [List.isPrefixOf_iff_prefix]
        exact ⟨B, by simp⟩
      simp only [splitFirstL, hp, if_true]
      rw [show p :: (ps ++ B) = (p :: ps) ++ B from rfl, List.drop_left]
  | cons a A' ih =>
    intro B h
    have h0 : pat.isPrefixOf (a :: (A' ++ pat ++ B)) = false := by
      have := h 0 (by simp)
      simpa using this
    have hsh : ∀ i < A'.length,
        pat.isPrefixOf ((A' ++ pat ++ B).drop i) = false := by
      intro i hi
      have := h (i + 1) (by simp; omega)
      simpa [List.cons_append] using this
    have hstep : splitFirstL pat (a :: (A' ++ pat ++ B)) =
        (splitFirstL pat (A' ++ pat ++ B)).map
          (fun p => (a :: p.1, p.2)) := by
      simp only [splitFirstL, h0, Bool.false_eq_true, if_false]
    rw [List.cons_append, List.cons_append, hstep, ih B hsh]
    rfl

/-- JS `replace` under a first-occurrence split: the text before and after
the match is byte-preserved, and the `$`-expanded replacement stands in
between. -/
theorem replaceFirstJS_data (s pat repl : String) (A B : List Char)
    (hpat : pat.data ≠ [])
    (hs : s.data = A ++ pat.data ++ B)
    (hfirst : ∀ i < A.length,
      pat.data.isPrefixOf (s.data.drop i) = false) :
    (replaceFirstJS s pat repl).data =
      A ++ expandRepl pat.data A B repl.data ++ B := by
  have hsp : splitFirstL pat.data (A ++ pat.data ++ B) = some (A, B) := by
    apply splitFirstL_split hpat
    intro i hi
    have := hfirst i hi
    rwa [hs] at this
  show replaceFirstJSL pat.data repl.data s.data = _
  rw [hs]
  unfold replaceFirstJSL
  rw [hsp]

theorem natToStr_no_dollar (n : Nat) : ∀ c ∈ (natToStr n).data, c ≠ '$' := by
  intro c hc
  unfold natToStr at hc
  by_cases h0 : n = 0
  · rw [if_pos h0] at hc
    simp only [show ("0" : String).data = ['0'] from rfl, List.mem_singleton] at hc
    rw [hc]
    decide
  · rw [if_neg h0] at hc
    have hd := natDigits_all_digit n c hc
    intro he
    rw [he] at hd
    exact absurd hd (by decide)

theorem propHead_no_dollar (n : Nat) : ∀ c ∈ (propHead n).data, c ≠ '$' := by
  intro c hc
  simp only [propHead, String.data_append, List.append_assoc,
    List.mem_append] at hc
  rcases hc with h | h | h | h | h | h
  · exact (by decide : ∀ x ∈ ("    " : String).data, x ≠ '$') c h
  · exact (by decide : ∀ x ∈ ("<property fmtid=\"" : String).data, x ≠ '$') c h
  · exact (by decide : ∀ x ∈ fmtid.data, x ≠ '$') c h
  · exact (by decide : ∀ x ∈ ("\" pid=\"" : String).data, x ≠ '$') c h
  · exact natToStr_no_dollar n c h
  · exact (by decide :
      ∀ x ∈ ("\" name=\"SharedoTemplateId__0\"><vt:lpwstr>" : String).data,
        x ≠ '$') c h

theorem propTail_no_dollar : ∀ c ∈ propTail.data, c ≠ '$' := by decide

/-- The structural effect of `patchCustomXml`: the prefix before the first
`</Properties>` and everything after it are byte-preserved; spliced in
between are the fixed element head carrying the computed pid, then the
`$`-expansion of the template identifier followed by the element tail. -/
theorem patchCustomXml_data (content tid : String) (A B : List Char)
    (hs : content.data = A ++ closePropsTag.data ++ B)
    (hfirst : ∀ i < A.length,
      closePropsTag.data.isPrefixOf (content.data.drop i) = false) :
    (patchCustomXml content tid).data =
      A ++ (propHead (nextPid content)).data
        ++ expandRepl closePropsTag.data A B (tid.data ++ propTail.data)
        ++ B := by
  unfold patchCustomXml
  rw [replaceFirstJS_data content closePropsTag
    ("    " ++ mkProperty (nextPid content) tid ++ "\n" ++ closePropsTag)
    A B (by decide) hs hfirst]
  have hsplit : ("    " ++ mkProperty (nextPid content) tid ++ "\n"
      ++ closePropsTag).data =
      (propHead (nextPid content)).data ++ (tid.data ++ propTail.data) := by
    simp [mkProperty, propHead, propTail, String.data_append,
      List.append_assoc]
  rw [hsplit, expandRepl_append_left _ _ _ _ _ (propHead_no_dollar _)]
  simp [List.append_assoc]

/-- For a template identifier without `$`, the `$`-expansion is the
identity and the splice carries the identifier literally. -/
theorem patchCustomXml_data_nodollar (content tid : String) (A B : List Char)
    (hs : content.data = A ++ closePropsTag.data ++ B)
    (hfirst : ∀ i < A.length,
      closePropsTag.data.isPrefixOf (content.data.drop i) = false)
    (hdollar : ∀ c ∈ tid.data, c ≠ '$') :
    (patchCustomXml content tid).data =
      A ++ ("    " ++ mkProperty (nextPid content) tid ++ "\n").data
        ++ closePropsTag.data ++ B := by
  rw [patchCustomXml_data content tid A B hs hfirst]
  rw [expandRepl_no_dollar closePropsTag.data A B (tid.data ++ propTail.data)
    (fun c hc => (List.mem_append.mp hc).elim (hdollar c)
      (propTail_no_dollar c))]
  simp [mkProperty, propHead, propTail, String.data_append,
    List.append_assoc]

theorem mem_pidMatches_patch (content tid : String) (A B : List Char)
    (hs : content.data = A ++ closePropsTag.data ++ B)
    (hfirst : ∀ i < A.length,
      closePropsTag.data.isPrefixOf (content.data.drop i) = false) :
    nextPid content ∈ pidMatches (patchCustomXml content tid) := by
  have hnp0 : nextPid content ≠ 0 := by
    have := nextPid_pos content
    omega
  have hd := patchCustomXml_data content tid A B hs hfirst
  have hnts : (natToStr (nextPid content)).data = natDigits (nextPid content) := by
    unfold natToStr
    rw [if_neg hnp0]
  have f1 : ("\" pid=\"" : String).data = ['"', ' '] ++ pidLit := rfl
  have f2 : ("\" name=\"SharedoTemplateId__0\"><vt:lpwstr>" : String).data =
      ['"'] ++ (" name=\"SharedoTemplateId__0\"><vt:lpwstr>" : String).data := rfl
  have hU : (patchCustomXml content tid).data =
      (A ++ ("    " : String).data ++ ("<property fmtid=\"" : String).data
        ++ fmtid.data ++ ['"']) ++
      ' ' :: (pidLit ++ natDigits (nextPid content) ++ '"' ::
        ((" name=\"SharedoTemplateId__0\"><vt:lpwstr>" : String).data
          ++ (expandRepl closePropsTag.data A B (tid.data ++ propTail.data)
            ++ B))) := by
    rw [hd]
    simp only [propHead, String.data_append, hnts, f1, f2]
    simp [pidLit, List.append_assoc, List.cons_append, List.nil_append]
  unfold pidMatches
  rw [hU]
  rw [litScan_append _ (by intro c hc; injection hc with hc; rw [← hc]; decide)]
  rw [litScan_cons_skip (by decide) (by decide)]
  rw [litScan_of_tryLit_some
    (tryLit_intro pidLit _ (natDigits_ne_nil hnp0)
      (natDigits_all_digit (nextPid content)))]
  rw [digitsToNat_natDigits]
  simp

/-- Monotone pid sequence: the pid a patch writes is strictly below the
pid the next patch will compute. -/
theorem nextPid_patch_gt (content tid : String) (A B : List Char)
    (hs : content.data = A ++ closePropsTag.data ++ B)
    (hfirst : ∀ i < A.length,
      closePropsTag.data.isPrefixOf (content.data.drop i) = false) :
    nextPid content < nextPid (patchCustomXml content tid) :=
  nextPid_gt_of_mem (mem_pidMatches_patch content tid A B hs hfirst)

/-! ## Claim theorems -/

/-- C7: each logical field is resolved snake_case key first, then the
human-readable header alias, first non-empty match winning; a record is
included in the ingest result iff both its resolved docid and name are
non-empty (others silently dropped); and an ingest that accepts zero
records fails with the no-valid-entries error instead of succeeding with
an empty result. -/
theorem C7_manifest_resolution_and_acceptance
    (records : List CsvRecord) (batchId : String) :
    (∀ (r : CsvRecord) (k1 k2 : String),
      (jsTruthy (r.get k1) = true → resolveField r k1 k2 = r.get k1) ∧
      (jsTruthy (r.get k1) = false → resolveField r k1 k2 = r.get k2)) ∧
    (∀ r ∈ records,
      (rowFromRecord r batchId ∈ parseManifestRows records batchId ↔
        (jsTruthy (resolveField r "docid" "DocID") = true ∧
         jsTruthy (resolveField r "name" "Name") = true))) ∧
    (parseManifestRows records batchId = [] →
      ingestManifest records batchId =
        .error "No valid rows found in CSV file") ∧
    (parseManifestRows records batchId ≠ [] →
      ingestManifest records batchId =
        .ok (parseManifestRows records batchId)) := by
  refine ⟨?_, ?_, ?_, ?_⟩
  · intro r k1 k2
    constructor
    · intro h
      simp [resolveField, jsOr, h]
    · intro h
      simp [resolveField, jsOr, h]
  · intro r hr
    unfold parseManifestRows
    rw [List.mem_filter]
    constructor
    · rintro ⟨-, hacc⟩
      have : acceptRow (rowFromRecord r batchId) = true := hacc
      simp only [acceptRow, rowFromRecord, Bool.and_eq_true] at this
      exact this
    · rintro ⟨h1, h2⟩
      refine ⟨List.mem_map_of_mem _ hr, ?_⟩
      simp only [acceptRow, rowFromRecord, Bool.and_eq_true]
      exact ⟨h1, h2⟩
  · intro h
    unfold ingestManifest checkParsedRows
    rw [h]
    rfl
  · intro h
    unfold ingestManifest checkParsedRows
    rw [if_neg]
    simpa using h

/-- Two concrete manifest records for the C7 witness: one resolvable via
snake_case keys, one missing `name`. -/
def wRecGood : CsvRecord :=
  ⟨fun k => if k = "docid" then some "doc1.dot"
    else if k = "Name" then some "Letter" else none⟩

/-- A record whose `name` resolves to nothing. -/
def wRecBad : CsvRecord :=
  ⟨fun k => if k = "docid" then some "doc2.dot" else none⟩

theorem C7_witness :
    rowFromRecord wRecGood "b1" ∈ parseManifestRows [wRecGood, wRecBad] "b1" ∧
    ingestManifest [wRecBad] "b1" = .error "No valid rows found in CSV file" :=
  ⟨((C7_manifest_resolution_and_acceptance [wRecGood, wRecBad] "b1").2.1
      wRecGood (by simp)).mpr (by decide),
   (C7_manifest_resolution_and_acceptance [wRecBad] "b1").2.2.1 (by decide)⟩

/-- C8: batch creation is idempotent on the manifest storage path — a
second `createBatch` on the same path returns the same id and leaves the
`uploads` table unchanged (conflict reuse, no second row). -/
theorem C8_createBatch_idempotent (tbl : UploadsTable) (p : String) :
    (createBatch (createBatch tbl p).1 p).2 = (createBatch tbl p).2 ∧
    (createBatch (createBatch tbl p).1 p).1 = (createBatch tbl p).1 := by
  cases hf : tbl.rows.find? (fun r => r.2 = p) with
  | some r =>
    simp [createBatch, hf]
  | none =>
    have hf2 : (tbl.rows ++ [(tbl.nextId, p)]).find?
        (fun r => decide (r.2 = p)) = some (tbl.nextId, p) := by
      rw [List.find?_append, hf]
      simp
    simp [createBatch, hf, hf2]

/-- C9: the two name-resolution operations return `none` whenever the
underlying authenticated listing call fails, for any reason — the error is
swallowed — and that `none` is indistinguishable from a genuine no-match
listing. -/
theorem C9_resolution_swallows_errors (e : String) (q : String) :
    getTemplateTypeSystemName (.error e) q = none ∧
    getContextTypeSystemName (.error e) q = none ∧
    (∀ types : List PlatformType,
      types.find? (fun t => nameMatches t.name q) = none →
      getTemplateTypeSystemName (.ok types) q =
        getTemplateTypeSystemName (.error e) q) ∧
    (∀ wts : List WorkType,
      wts.find? (fun t => nameMatches t.name q) = none →
      findDerived wts q = none →
      getContextTypeSystemName (.ok wts) q =
        getContextTypeSystemName (.error e) q) := by
  refine ⟨rfl, rfl, ?_, ?_⟩
  · intro types h
    simp [getTemplateTypeSystemName, h]
  · intro wts h1 h2
    simp [getContextTypeSystemName, h1, h2]

theorem C9_witness :
    getTemplateTypeSystemName (.error "ECONNREFUSED") "Letter" = none ∧
    getContextTypeSystemName (.ok []) "Matter" =
      getContextTypeSystemName (.error "HTTP 500") "Matter" :=
  ⟨(C9_resolution_swallows_errors "ECONNREFUSED" "Letter").1,
   (C9_resolution_swallows_errors "HTTP 500" "Matter").2.2.2 [] (by decide)
     (by decide)⟩

/-- C6: with a cache slot present, the cached token is returned (with
`cached:true`, cache untouched) iff `now < expiry − 30s`; otherwise a
fresh exchange happens: on success the cache is replaced by the new token
with absolute expiry `now + expires_in·1000` and the result carries
`cached:false`; a non-2xx response or a response lacking a token raises
the authentication error and leaves the cache exactly as it was. -/
theorem C6_token_cache (tc : TokenCache) (now : Int) (resp : TokenResp) :
    (now < tc.expiresAt - 30000 →
      getAccessToken (some tc) now resp =
        (some tc, .ok ⟨tc.accessToken, tc.expiresIn, tc.tokenType, true,
          tc.expiresAt⟩)) ∧
    (∀ state res, getAccessToken (some tc) now resp = (state, .ok res) →
      (res.cached = true ↔ now < tc.expiresAt - 30000)) ∧
    (¬ now < tc.expiresAt - 30000 → resp.ok = true →
      jsTruthy resp.access_token = true →
      getAccessToken (some tc) now resp =
        (some ⟨resp.access_token.getD "", now + resp.expires_in * 1000,
           resp.expires_in, (jsOr resp.token_type (some "Bearer")).getD ""⟩,
         .ok ⟨resp.access_token.getD "", resp.expires_in,
           (jsOr resp.token_type (some "Bearer")).getD "", false,
           now + resp.expires_in * 1000⟩)) ∧
    (¬ now < tc.expiresAt - 30000 →
      (resp.ok = false ∨ jsTruthy resp.access_token = false) →
      ∃ msg, getAccessToken (some tc) now resp = (some tc, .error msg)) ∧
    (resp.ok = true → jsTruthy resp.access_token = true →
      ∃ res, getAccessToken none now resp =
        (some ⟨resp.access_token.getD "", now + resp.expires_in * 1000,
           resp.expires_in, (jsOr resp.token_type (some "Bearer")).getD ""⟩,
          .ok res) ∧ res.cached = false) := by
  refine ⟨?_, ?_, ?_, ?_, ?_⟩
  · intro h
    simp [getAccessToken, h]
  · intro state res h
    by_cases hc : now < tc.expiresAt - 30000
    · simp only [getAccessToken, hc, if_true, Prod.mk.injEq] at h
      obtain ⟨-, h⟩ := h
      injection h with h
      rw [← h]
      simpa using hc
    · simp only [getAccessToken, hc, if_false] at h
      by_cases hok : resp.ok
      · by_cases htok : jsTruthy resp.access_token
        · simp only [hok, htok, Bool.not_true, Bool.false_eq_true, if_false,
            Prod.mk.injEq] at h
          obtain ⟨-, h⟩ := h
          injection h with h
          rw [← h]
          simpa using hc
        · simp only [hok, Bool.not_true, Bool.false_eq_true, if_false,
            Bool.not_eq_true] at h
          rw [Bool.not_eq_true] at htok
          simp [htok] at h
      · rw [Bool.not_eq_true] at hok
        simp [hok] at h
  · intro h hok htok
    simp [getAccessToken, h, hok, htok]
  · intro h hfail
    rcases hfail with hok | htok
    · exact ⟨"ShareDo authentication failed: " ++ toString resp.status
        ++ " " ++ resp.statusText, by simp [getAccessToken, h, hok]⟩
    · by_cases hok : resp.ok
      · exact ⟨"No access token received from ShareDo",
          by simp [getAccessToken, h, hok, htok]⟩
      · rw [Bool.not_eq_true] at hok
        exact ⟨"ShareDo authentication failed: " ++ toString resp.status
          ++ " " ++ resp.statusText, by simp [getAccessToken, h, hok]⟩
  · intro hok htok
    exact ⟨⟨resp.access_token.getD "", resp.expires_in,
      (jsOr resp.token_type (some "Bearer")).getD "", false,
      now + resp.expires_in * 1000⟩,
      by simp [getAccessToken, hok, htok], rfl⟩

theorem C6_witness :
    getAccessToken
        (some ⟨"tok", 100000, 3600, "Bearer"⟩) 50000
        ⟨true, 200, "OK", some "fresh", 3600, some "Bearer"⟩ =
      (some ⟨"tok", 100000, 3600, "Bearer"⟩,
        .ok ⟨"tok", 3600, "Bearer", true, 100000⟩) ∧
    getAccessToken
        (some ⟨"tok", 100000, 3600, "Bearer"⟩) 99000
        ⟨true, 200, "OK", some "fresh", 3600, some "Bearer"⟩ =
      (some ⟨"fresh", 99000 + 3600 * 1000, 3600, "Bearer"⟩,
        .ok ⟨"fresh", 3600, "Bearer", false, 99000 + 3600 * 1000⟩) ∧
    ∃ msg, getAccessToken
        (some ⟨"tok", 100000, 3600, "Bearer"⟩) 99000
        ⟨false, 500, "Server Error", none, 0, none⟩ =
      (some ⟨"tok", 100000, 3600, "Bearer"⟩, .error msg) :=
  ⟨(C6_token_cache ⟨"tok", 100000, 3600, "Bearer"⟩ 50000
      ⟨true, 200, "OK", some "fresh", 3600, some "Bearer"⟩).1 (by decide),
   (C6_token_cache ⟨"tok", 100000, 3600, "Bearer"⟩ 99000
      ⟨true, 200, "OK", some "fresh", 3600, some "Bearer"⟩).2.2.1
      (by decide) rfl (by decide),
   (C6_token_cache ⟨"tok", 100000, 3600, "Bearer"⟩ 99000
      ⟨false, 500, "Server Error", none, 0, none⟩).2.2.2.1
      (by decide) (Or.inl rfl)⟩

theorem upsertRows_ret (reg : List TemplateRow) (t : TemplateRow)
    (b : String) : ∃ old, (upsertRows reg t b).2 = updatedRow t b old := by
  induction reg with
  | nil => exact ⟨{}, rfl⟩
  | cons r rest ih =>
    by_cases h : r.docid = t.docid
    · exact ⟨r, by simp [upsertRows, h]⟩
    · obtain ⟨old, hold⟩ := ih
      exact ⟨old, by simp [upsertRows, h, hold]⟩

theorem upsertRows_filter (reg : List TemplateRow) (t : TemplateRow)
    (b : String) (h : countDoc reg t.docid ≤ 1) :
    (upsertRows reg t b).1.filter (fun r => r.docid = t.docid) =
      [(upsertRows reg t b).2] := by
  induction reg with
  | nil =>
    simp [upsertRows, List.filter_cons, freshRow]
  | cons r rest ih =>
    by_cases hr : r.docid = t.docid
    · have hdec : decide (r.docid = t.docid) = true := by simp [hr]
      have hcount : countDoc rest t.docid = 0 := by
        unfold countDoc at h ⊢
        simp only [List.filter_cons, hdec, if_true, List.length_cons] at h
        omega
      have hrest : rest.filter (fun r => r.docid = t.docid) = [] := by
        have := List.length_eq_zero.mp hcount
        exact this
      simp [upsertRows, hr, List.filter_cons, updatedRow, hrest]
    · have hdec : decide (r.docid = t.docid) = false := by simp [hr]
      have hcount : countDoc rest t.docid ≤ 1 := by
        unfold countDoc at h ⊢
        simp only [List.filter_cons, hdec, Bool.false_eq_true, if_false] at h
        omega
      simp [upsertRows, hr, List.filter_cons, hdec, ih hcount]

/-- C1: upserting twice with the same docid leaves exactly one row for
that docid; that row's descriptive fields, docid and batch value all come
from the second call (full replace, not merge); the operation returns the
resulting row; and the failure path raises an error naming the offending
docid. -/
theorem C1_upsert_full_replace (reg : List TemplateRow)
    (t1 t2 : TemplateRow) (b1 b2 : String)
    (hdoc : t1.docid = t2.docid)
    (huniq : countDoc reg t1.docid ≤ 1) :
    (upsertTemplate reg t1 b1 none = .ok (upsertRows reg t1 b1)) ∧
    ((upsertRows (upsertRows reg t1 b1).1 t2 b2).1.filter
        (fun r => r.docid = t2.docid) =
      [(upsertRows (upsertRows reg t1 b1).1 t2 b2).2]) ∧
    ((upsertRows (upsertRows reg t1 b1).1 t2 b2).2.template_type
        = t2.template_type ∧
     (upsertRows (upsertRows reg t1 b1).1 t2 b2).2.system_name
        = t2.system_name ∧
     (upsertRows (upsertRows reg t1 b1).1 t2 b2).2.name = t2.name ∧
     (upsertRows (upsertRows reg t1 b1).1 t2 b2).2.categories
        = t2.categories ∧
     (upsertRows (upsertRows reg t1 b1).1 t2 b2).2.data_context
        = t2.data_context ∧
     (upsertRows (upsertRows reg t1 b1).1 t2 b2).2.participant_role
        = t2.participant_role ∧
     (upsertRows (upsertRows reg t1 b1).1 t2 b2).2.output_title
        = t2.output_title ∧
     (upsertRows (upsertRows reg t1 b1).1 t2 b2).2.output_file_name
        = t2.output_file_name ∧
     (upsertRows (upsertRows reg t1 b1).1 t2 b2).2.document_source
        = t2.document_source ∧
     (upsertRows (upsertRows reg t1 b1).1 t2 b2).2.docid = t2.docid ∧
     (upsertRows (upsertRows reg t1 b1).1 t2 b2).2.batch_id
        = jsOr t2.batch_id (some b2)) ∧
    (∀ m, upsertTemplate reg t2 b2 (some m) =
      .error ("Failed to upsert template with docid '" ++ jsStr t2.docid
        ++ "': " ++ m)) ∧
    (∀ m d, t2.docid = some d →
      ∃ pre post, ("Failed to upsert template with docid '"
        ++ jsStr t2.docid ++ "': " ++ m) = pre ++ d ++ post) := by
  have hcount1 : countDoc (upsertRows reg t1 b1).1 t2.docid ≤ 1 := by
    have := upsertRows_filter reg t1 b1 huniq
    unfold countDoc
    rw [← hdoc, this]
    simp
  refine ⟨rfl, upsertRows_filter _ t2 b2 hcount1, ?_, fun m => rfl, ?_⟩
  · obtain ⟨old, hold⟩ := upsertRows_ret (upsertRows reg t1 b1).1 t2 b2
    rw [hold]
    simp [updatedRow]
  · intro m d hd
    refine ⟨"Failed to upsert template with docid '", "': " ++ m, ?_⟩
    rw [hd]
    apply string_data_eq
    simp [String.data_append, jsStr, List.append_assoc]

/-- Concrete rows for the C1 witness: same docid, different descriptive
fields. -/
def wRow1 : TemplateRow :=
  { docid := some "doc1.dot", name := some "Letter A",
    template_type := some "Letter" }

/-- Second write with the same docid. -/
def wRow2 : TemplateRow :=
  { docid := some "doc1.dot", name := some "Letter B",
    categories := some "Conveyancing" }

theorem C1_witness :
    (upsertRows (upsertRows [] wRow1 "b1").1 wRow2 "b2").1.filter
        (fun r => r.docid = wRow2.docid) =
      [(upsertRows (upsertRows [] wRow1 "b1").1 wRow2 "b2").2] ∧
    (upsertRows (upsertRows [] wRow1 "b1").1 wRow2 "b2").2.name
      = wRow2.name :=
  ⟨(C1_upsert_full_replace [] wRow1 wRow2 "b1" "b2" (by decide)
      (by decide)).2.1,
   (C1_upsert_full_replace [] wRow1 wRow2 "b1" "b2" (by decide)
      (by decide)).2.2.1.2.2.1⟩

theorem findRow_update (reg : List TemplateRow) (d p : String) :
    findRow (updateConvertedPath reg d p) d =
      (findRow reg d).map
        (fun r => { r with converted_file_path := some p }) := by
  induction reg with
  | nil => rfl
  | cons r rest ih =>
    unfold findRow updateConvertedPath at ih ⊢
    simp only [List.map_cons]
    by_cases hr : r.docid = some d
    · rw [if_pos hr]
      rw [List.find?_cons, List.find?_cons]
      have e1 : decide
          (({ r with converted_file_path := some p } : TemplateRow).docid
            = some d) = true := by
        simp [hr]
      have e2 : decide (r.docid = some d) = true := by simp [hr]
      simp only [e1, e2]
      rfl
    · rw [if_neg hr]
      rw [List.find?_cons, List.find?_cons]
      have e2 : decide (r.docid = some d) = false := by simp [hr]
      simp only [e2]
      exact ih

theorem storePut_frame (s : Store) (b p : String) (v : String)
    (b' p' : String) (h : ¬ (b' = b ∧ p' = p)) :
    storePut s b p v b' p' = s b' p' := by
  unfold storePut
  rw [if_neg h]

theorem storePut_idem (s : Store) (b p v : String) :
    storePut (storePut s b p v) b p v = storePut s b p v := by
  funext b' p'
  by_cases h : b' = b ∧ p' = p
  · simp [storePut, h]
  · simp [storePut, h]

theorem updateConvertedPath_idem (reg : List TemplateRow) (d p : String) :
    updateConvertedPath (updateConvertedPath reg d p) d p =
      updateConvertedPath reg d p := by
  induction reg with
  | nil => rfl
  | cons r rest ih =>
    unfold updateConvertedPath at ih ⊢
    simp only [List.map_cons]
    by_cases hr : r.docid = some d
    · rw [if_pos hr]
      have hhead :
          (if ({ r with converted_file_path := some p } :
              TemplateRow).docid = some d
            then ({ ({ r with converted_file_path := some p } :
              TemplateRow) with converted_file_path := some p })
            else { r with converted_file_path := some p }) =
          { r with converted_file_path := some p } := by
        rw [if_pos hr]
      rw [hhead, ih]
    · rw [if_neg hr, if_neg hr, ih]

/-- C3: the Convert workflow stores the converted artifact in the
`conversions` bucket under the docid with its final extension replaced by
`.docx`, updates the row's `converted_file_path` to that path, and returns
`{docid, convertedFilePath}`; a docid with no registry row fails with the
not-found error whatever the converter and store would do; a 408 converter
response becomes the timeout error and any other non-2xx the conversion
error; and re-running Convert overwrites both the artifact and the path
field, reproducing the same result and state (idempotence). -/
theorem C3_convert_workflow (convert : String → String → ConvResp)
    (reg : List TemplateRow) (store : Store) (docid : String) :
    (∀ t bytes, findRow reg docid = some t →
      store "uploads" docid = some bytes →
      respOk (convert bytes docid) = true →
      convertDocumentWorkflow convert reg store docid =
        .ok (⟨docid, removeExtension docid ++ ".docx"⟩,
          updateConvertedPath reg docid (removeExtension docid ++ ".docx"),
          storePut store "conversions" (removeExtension docid ++ ".docx")
            (convert bytes docid).bytes) ∧
      storePut store "conversions" (removeExtension docid ++ ".docx")
          (convert bytes docid).bytes "conversions"
          (removeExtension docid ++ ".docx") =
        some (convert bytes docid).bytes ∧
      findRow (updateConvertedPath reg docid
          (removeExtension docid ++ ".docx")) docid =
        some { t with
          converted_file_path := some (removeExtension docid ++ ".docx") }) ∧
    (findRow reg docid = none →
      ∀ (convert2 : String → String → ConvResp) (store2 : Store),
        convertDocumentWorkflow convert2 reg store2 docid =
          .error ("Template with docid '" ++ docid ++ "' not found")) ∧
    (∀ t bytes, findRow reg docid = some t →
      store "uploads" docid = some bytes →
      respOk (convert bytes docid) = false →
      (convert bytes docid).status = 408 →
      convertDocumentWorkflow convert reg store docid =
        .error "Conversion timeout exceeded - file may be too complex") ∧
    (∀ t bytes, findRow reg docid = some t →
      store "uploads" docid = some bytes →
      respOk (convert bytes docid) = false →
      (convert bytes docid).status ≠ 408 →
      convertDocumentWorkflow convert reg store docid =
        .error ("Conversion service failed: "
          ++ toString (convert bytes docid).status ++ " "
          ++ (convert bytes docid).statusText ++ " - "
          ++ (convert bytes docid).body)) ∧
    (∀ t bytes, findRow reg docid = some t →
      store "uploads" docid = some bytes →
      respOk (convert bytes docid) = true →
      convertDocumentWorkflow convert
          (updateConvertedPath reg docid (removeExtension docid ++ ".docx"))
          (storePut store "conversions" (removeExtension docid ++ ".docx")
            (convert bytes docid).bytes) docid =
        .ok (⟨docid, removeExtension docid ++ ".docx"⟩,
          updateConvertedPath reg docid (removeExtension docid ++ ".docx"),
          storePut store "conversions" (removeExtension docid ++ ".docx")
            (convert bytes docid).bytes)) := by
  refine ⟨?_, ?_, ?_, ?_, ?_⟩
  · intro t bytes hfind hstore hok
    refine ⟨?_, ?_, ?_⟩
    · simp [convertDocumentWorkflow, hfind, hstore, hok]
    · unfold storePut
      simp
    · rw [findRow_update, hfind]
      rfl
  · intro hfind convert2 store2
    simp [convertDocumentWorkflow, hfind]
  · intro t bytes hfind hstore hbad h408
    simp [convertDocumentWorkflow, hfind, hstore, hbad, h408]
  · intro t bytes hfind hstore hbad h408
    simp [convertDocumentWorkflow, hfind, hstore, hbad, h408]
  · intro t bytes hfind hstore hok
    have hfind2 : findRow (updateConvertedPath reg docid
        (removeExtension docid ++ ".docx")) docid =
        some { t with
          converted_file_path := some (removeExtension docid ++ ".docx") } := by
      rw [findRow_update, hfind]
      rfl
    have hstore2 : storePut store "conversions"
        (removeExtension docid ++ ".docx") (convert bytes docid).bytes
        "uploads" docid = some bytes := by
      rw [storePut_frame]
      · exact hstore
      · rintro ⟨hb, -⟩
        exact absurd hb (by decide)
    simp only [convertDocumentWorkflow, hfind2, hstore2, hok, if_true]
    rw [storePut_idem, updateConvertedPath_idem]

theorem C3_witness :
    removeExtension "doc1.dot" ++ ".docx" = "doc1.docx" ∧
    convertDocumentWorkflow (fun _ _ => ⟨200, "OK", "", "DOCXBYTES"⟩)
        [wRow1] (fun b p => if b = "uploads" ∧ p = "doc1.dot"
          then some "DOTBYTES" else none) "doc1.dot" =
      .ok (⟨"doc1.dot", removeExtension "doc1.dot" ++ ".docx"⟩,
        updateConvertedPath [wRow1] "doc1.dot"
          (removeExtension "doc1.dot" ++ ".docx"),
        storePut (fun b p => if b = "uploads" ∧ p = "doc1.dot"
            then some "DOTBYTES" else none)
          "conversions" (removeExtension "doc1.dot" ++ ".docx") "DOCXBYTES") ∧
    convertDocumentWorkflow (fun _ _ => ⟨200, "OK", "", "DOCXBYTES"⟩)
        [] (fun _ _ => none) "missing.dot" =
      .error "Template with docid 'missing.dot' not found" :=
  ⟨by decide,
   ((C3_convert_workflow (fun _ _ => ⟨200, "OK", "", "DOCXBYTES"⟩)
      [wRow1] (fun b p => if b = "uploads" ∧ p = "doc1.dot"
        then some "DOTBYTES" else none) "doc1.dot").1 wRow1 "DOTBYTES"
      (by decide) (by simp) (by decide)).1,
   (C3_convert_workflow (fun _ _ => ⟨200, "OK", "", "DOCXBYTES"⟩)
      [] (fun _ _ => none) "missing.dot").2.1 (by decide) _ _⟩

/-- A trace that contains only template-type warnings: no bytes were
fetched, nothing was uploaded, no template was created. -/
def warnOnly (tr : List DeployEvent) : Prop :=
  ∀ e ∈ tr, ∃ n, e = .warnTemplateType n

theorem resolveStep_trace (env : DeployEnv) (t : TemplateRow) :
    (resolveTemplateTypeStep env t).2 = [] ∨
    ∃ n, (resolveTemplateTypeStep env t).2 = [.warnTemplateType n] := by
  unfold resolveTemplateTypeStep
  by_cases h1 : jsTruthy t.template_type = true
  · simp only [h1, if_true]
    cases h2 : env.resolveTemplateType (t.template_type.getD "") with
    | none => exact Or.inr ⟨_, rfl⟩
    | some s =>
      by_cases h3 : s = ""
      · simp only [h3, if_pos rfl]
        exact Or.inr ⟨_, rfl⟩
      · simp only [if_neg h3]
        exact Or.inl (by trivial)
  · have h1f : jsTruthy t.template_type = false := by
      revert h1
      cases jsTruthy t.template_type <;> simp
    simp only [h1f, Bool.false_eq_true, if_false]
    exact Or.inl (by trivial)

theorem warnOnly_resolveStep (env : DeployEnv) (t : TemplateRow) :
    warnOnly (resolveTemplateTypeStep env t).2 := by
  intro e he
  rcases resolveStep_trace env t with h | ⟨n, h⟩ <;> rw [h] at he
  · simp at he
  · simp at he
    exact ⟨n, he⟩

/-- C2: with the registry row found, the Deploy guards run in order —
template-type resolution first (a miss is only a warning), then the
mandatory `data_context` resolution (absence or miss is fatal), then the
non-blank `converted_file_path` check — and when any of the fatal guards
fires, the trace holds nothing but warnings: no bytes were fetched or
uploaded. On the success path a template-type miss still deploys, with
the empty string substituted into the created template's payload. -/
theorem C2_deploy_guard_order (env : DeployEnv) (reg : List TemplateRow)
    (docid folder : String) (t : TemplateRow)
    (hfind : findRow reg docid = some t) :
    (jsTruthy t.data_context = false →
      (deployToShareDo env reg docid folder).result =
        .error "Template data_context is required for deployment" ∧
      warnOnly (deployToShareDo env reg docid folder).trace) ∧
    (jsTruthy t.data_context = true →
      (env.resolveContextType (t.data_context.getD "") = none ∨
        env.resolveContextType (t.data_context.getD "") = some "") →
      (deployToShareDo env reg docid folder).result =
        .error ("Context type \"" ++ t.data_context.getD ""
          ++ "\" not found in ShareDo work types") ∧
      warnOnly (deployToShareDo env reg docid folder).trace) ∧
    (∀ c, jsTruthy t.data_context = true →
      env.resolveContextType (t.data_context.getD "") = some c → c ≠ "" →
      jsTrim (t.converted_file_path.getD "") = "" →
      (deployToShareDo env reg docid folder).result =
        .error ("Template with docid '" ++ docid
          ++ "' has no converted file path. Please convert the document first.") ∧
      warnOnly (deployToShareDo env reg docid folder).trace) ∧
    (jsTruthy t.template_type = true →
      env.resolveTemplateType (t.template_type.getD "") = none →
      DeployEvent.warnTemplateType (t.template_type.getD "") ∈
        (deployToShareDo env reg docid folder).trace) ∧
    (∀ c bytes f fs id, jsTruthy t.template_type = true →
      env.resolveTemplateType (t.template_type.getD "") = none →
      jsTruthy t.data_context = true →
      env.resolveContextType (t.data_context.getD "") = some c → c ≠ "" →
      jsTrim (t.converted_file_path.getD "") ≠ "" →
      env.download "conversions" (t.converted_file_path.getD "") =
        some bytes →
      env.upload bytes (t.converted_file_path.getD "") folder =
        .ok (f :: fs) →
      env.persistFails = none →
      env.createTemplate ⟨t.system_name.getD "", "", c, f.pathId⟩ =
        .ok id →
      (deployToShareDo env reg docid folder).result = .ok id ∧
      DeployEvent.createTemplateCall ⟨t.system_name.getD "", "", c, f.pathId⟩
        ∈ (deployToShareDo env reg docid folder).trace) := by
  have hwarn := warnOnly_resolveStep env t
  have hout : deployToShareDo env reg docid folder =
      ⟨(deployAfterResolve env reg docid folder t
          (resolveTemplateTypeStep env t).1).result,
       (resolveTemplateTypeStep env t).2 ++
         (deployAfterResolve env reg docid folder t
           (resolveTemplateTypeStep env t).1).trace,
       (deployAfterResolve env reg docid folder t
         (resolveTemplateTypeStep env t).1).registry⟩ := by
    simp [deployToShareDo, hfind]
  refine ⟨?_, ?_, ?_, ?_, ?_⟩
  · intro h
    rw [hout]
    have hafter : deployAfterResolve env reg docid folder t
        (resolveTemplateTypeStep env t).1 =
        ⟨.error "Template data_context is required for deployment", [], reg⟩ := by
      simp [deployAfterResolve, h]
    rw [hafter]
    exact ⟨rfl, by simpa using hwarn⟩
  · intro h hmiss
    rw [hout]
    have hafter : deployAfterResolve env reg docid folder t
        (resolveTemplateTypeStep env t).1 =
        ⟨.error ("Context type \"" ++ t.data_context.getD ""
          ++ "\" not found in ShareDo work types"), [], reg⟩ := by
      rcases hmiss with hmiss | hmiss
      · simp [deployAfterResolve, h, hmiss]
      · simp [deployAfterResolve, h, hmiss]
    rw [hafter]
    exact ⟨rfl, by simpa using hwarn⟩
  · intro c h hctx hc hblank
    rw [hout]
    have hafter : deployAfterResolve env reg docid folder t
        (resolveTemplateTypeStep env t).1 =
        ⟨.error ("Template with docid '" ++ docid
          ++ "' has no converted file path. Please convert the document first."),
         [], reg⟩ := by
      simp [deployAfterResolve, h, hctx, hc, hblank]
    rw [hafter]
    exact ⟨rfl, by simpa using hwarn⟩
  · intro htt hmiss
    rw [hout]
    have hstep : (resolveTemplateTypeStep env t).2 =
        [.warnTemplateType (t.template_type.getD "")] := by
      simp [resolveTemplateTypeStep, htt, hmiss]
    rw [hstep]
    simp
  · intro c bytes f fs id htt hmiss hdc hctx hc hcf hdl hup hpf hct
    rw [hout]
    have hstep : resolveTemplateTypeStep env t =
        ("", [.warnTemplateType (t.template_type.getD "")]) := by
      simp [resolveTemplateTypeStep, htt, hmiss]
    have hafter : deployAfterResolve env reg docid folder t
        (resolveTemplateTypeStep env t).1 =
        ⟨.ok id,
         [DeployEvent.fetchConverted (t.converted_file_path.getD ""),
          DeployEvent.uploadToShareDo (t.converted_file_path.getD "") folder,
          DeployEvent.createTemplateCall
            ⟨t.system_name.getD "", "", c, f.pathId⟩],
         updateShareDoInfo reg docid f.pathId f.downloadUrl⟩ := by
      rw [hstep]
      simp [deployAfterResolve, hdc, hctx, hc, hcf, hdl, hup, hpf, hct]
    rw [hafter]
    exact ⟨rfl, by simp⟩

/-- C10: when the upload succeeds but the registry persistence step inside
the same try block fails, the deploy raises an error whose message claims
the upload to ShareDo failed, the trace shows the document was uploaded
and nothing was rolled back, `createTemplate` is never called, and the
registry is left unchanged — without the platform identifiers. -/
theorem C10_persist_failure_inside_upload_try (env : DeployEnv)
    (reg : List TemplateRow) (docid folder : String) (t : TemplateRow)
    (c bytes : String) (f : UploadedFile) (fs : List UploadedFile)
    (m : String)
    (hfind : findRow reg docid = some t)
    (hdc : jsTruthy t.data_context = true)
    (hctx : env.resolveContextType (t.data_context.getD "") = some c)
    (hc : c ≠ "")
    (hcf : jsTrim (t.converted_file_path.getD "") ≠ "")
    (hdl : env.download "conversions" (t.converted_file_path.getD "") =
      some bytes)
    (hup : env.upload bytes (t.converted_file_path.getD "") folder =
      .ok (f :: fs))
    (hpf : env.persistFails = some m) :
    (deployToShareDo env reg docid folder).result =
      .error ("Failed to upload file to ShareDo: " ++ m) ∧
    (deployToShareDo env reg docid folder).trace =
      (resolveTemplateTypeStep env t).2 ++
        [.fetchConverted (t.converted_file_path.getD ""),
         .uploadToShareDo (t.converted_file_path.getD "") folder] ∧
    DeployEvent.uploadToShareDo (t.converted_file_path.getD "") folder ∈
      (deployToShareDo env reg docid folder).trace ∧
    (∀ p, DeployEvent.createTemplateCall p ∉
      (deployToShareDo env reg docid folder).trace) ∧
    (deployToShareDo env reg docid folder).registry = reg := by
  have hout : deployToShareDo env reg docid folder =
      ⟨(deployAfterResolve env reg docid folder t
          (resolveTemplateTypeStep env t).1).result,
       (resolveTemplateTypeStep env t).2 ++
         (deployAfterResolve env reg docid folder t
           (resolveTemplateTypeStep env t).1).trace,
       (deployAfterResolve env reg docid folder t
         (resolveTemplateTypeStep env t).1).registry⟩ := by
    simp [deployToShareDo, hfind]
  have hafter : deployAfterResolve env reg docid folder t
      (resolveTemplateTypeStep env t).1 =
      ⟨.error ("Failed to upload file to ShareDo: " ++ m),
       [DeployEvent.fetchConverted (t.converted_file_path.getD ""),
        DeployEvent.uploadToShareDo (t.converted_file_path.getD "") folder],
       reg⟩ := by
    simp [deployAfterResolve, hdc, hctx, hc, hcf, hdl, hup, hpf]
  rw [hout, hafter]
  refine ⟨rfl, rfl, by simp, ?_, rfl⟩
  intro p hp
  simp only [List.mem_append] at hp
  rcases hp with hp | hp
  · obtain ⟨n, hn⟩ := warnOnly_resolveStep env t _ hp
    simp at hn
  · simp at hp

/-- The deploy oracles for the witnesses: template-type resolution always
misses, context "Matter" resolves, the converted file exists, the upload
returns one descriptor, and template creation succeeds. -/
def wEnv : DeployEnv :=
  { resolveTemplateType := fun _ => none
    resolveContextType := fun n => if n = "Matter" then some "matter-sys"
      else none
    download := fun b p => if b = "conversions" ∧ p = "doc1.docx"
      then some "DOCXBYTES" else none
    upload := fun _ _ _ => .ok [⟨"path-1", "url-1"⟩]
    createTemplate := fun _ => .ok "tpl-99"
    persistFails := none }

/-- Same oracles, but the registry persistence step fails. -/
def wEnvPersistFail : DeployEnv :=
  { wEnv with persistFails := some "db connection lost" }

/-- A fully deployable registry row. -/
def wDeployRow : TemplateRow :=
  { docid := some "doc1.dot", name := some "Letter",
    system_name := some "letter-sys", template_type := some "Letter Type",
    data_context := some "Matter", converted_file_path := some "doc1.docx",
    output_title := some "T", output_file_name := some "f.docx" }

/-- A row with no `data_context`. -/
def wRowNoCtx : TemplateRow :=
  { docid := some "doc2.dot", name := some "X",
    converted_file_path := some "doc2.docx" }

theorem C2_witness :
    (deployToShareDo wEnv [wRowNoCtx] "doc2.dot" "folder").result =
      .error "Template data_context is required for deployment" ∧
    (deployToShareDo wEnv [wDeployRow] "doc1.dot" "folder").result =
      .ok "tpl-99" ∧
    DeployEvent.warnTemplateType "Letter Type" ∈
      (deployToShareDo wEnv [wDeployRow] "doc1.dot" "folder").trace :=
  ⟨((C2_deploy_guard_order wEnv [wRowNoCtx] "doc2.dot" "folder" wRowNoCtx
      (by decide)).1 (by decide)).1,
   ((C2_deploy_guard_order wEnv [wDeployRow] "doc1.dot" "folder" wDeployRow
      (by decide)).2.2.2.2 "matter-sys" "DOCXBYTES" ⟨"path-1", "url-1"⟩ []
      "tpl-99" (by decide) rfl (by decide) rfl (by decide) (by decide) rfl
      rfl rfl rfl).1,
   (C2_deploy_guard_order wEnv [wDeployRow] "doc1.dot" "folder" wDeployRow
      (by decide)).2.2.2.1 (by decide) rfl⟩

theorem C10_witness :
    (deployToShareDo wEnvPersistFail [wDeployRow] "doc1.dot"
        "folder").result =
      .error "Failed to upload file to ShareDo: db connection lost" ∧
    (deployToShareDo wEnvPersistFail [wDeployRow] "doc1.dot"
        "folder").registry = [wDeployRow] :=
  ⟨(C10_persist_failure_inside_upload_try wEnvPersistFail [wDeployRow]
      "doc1.dot" "folder" wDeployRow "matter-sys" "DOCXBYTES"
      ⟨"path-1", "url-1"⟩ [] "db connection lost" (by decide) (by decide)
      rfl (by decide) (by decide) rfl rfl rfl).1,
   (C10_persist_failure_inside_upload_try wEnvPersistFail [wDeployRow]
      "doc1.dot" "folder" wDeployRow "matter-sys" "DOCXBYTES"
      ⟨"path-1", "url-1"⟩ [] "db connection lost" (by decide) (by decide)
      rfl (by decide) (by decide) rfl rfl rfl).2.2.2.2⟩

theorem zipLookup_add_other (z : Zip) (n c nm : String) (h : nm ≠ n) :
    zipLookup (zipAdd z n c) nm = zipLookup z nm := by
  unfold zipLookup zipAdd
  rw [List.find?_append]
  cases hf : z.find? (fun e => e.1 = nm) with
  | some e => simp [hf]
  | none =>
    have d1 : decide ((n, c).1 = nm) = false := by simp [Ne.symm h]
    rw [List.find?_cons_of_neg _ (by simp [d1])]
    simp [hf]

theorem zipLookup_add_same (z : Zip) (n c : String)
    (h : zipLookup z n = none) :
    zipLookup (zipAdd z n c) n = some c := by
  unfold zipLookup zipAdd
  unfold zipLookup at h
  rw [List.find?_append]
  cases hf : z.find? (fun e => e.1 = n) with
  | some e => simp [hf] at h
  | none =>
    rw [List.find?_cons_of_pos _ (by simp)]
    simp [hf]

theorem zipLookup_update_other (z : Zip) (n c nm : String) (h : nm ≠ n) :
    zipLookup (zipUpdate z n c) nm = zipLookup z nm := by
  induction z with
  | nil => rfl
  | cons e rest ih =>
    unfold zipLookup at ih ⊢
    unfold zipUpdate at ih ⊢
    simp only [List.map_cons]
    by_cases he : e.1 = n
    · rw [if_pos he]
      rw [List.find?_cons_of_neg _ (by simp [Ne.symm h]),
        List.find?_cons_of_neg _ (by simp [he, Ne.symm h])]
      exact ih
    · rw [if_neg he]
      by_cases hd : e.1 = nm
      · rw [List.find?_cons_of_pos _ (by simp [hd]),
          List.find?_cons_of_pos _ (by simp [hd])]
      · rw [List.find?_cons_of_neg _ (by simp [hd]),
          List.find?_cons_of_neg _ (by simp [hd])]
        exact ih

theorem zipLookup_update_same (z : Zip) (n c d : String)
    (h : zipLookup z n = some d) :
    zipLookup (zipUpdate z n c) n = some c := by
  induction z with
  | nil => simp [zipLookup] at h
  | cons e rest ih =>
    unfold zipLookup at ih h ⊢
    unfold zipUpdate at ih ⊢
    simp only [List.map_cons]
    by_cases he : e.1 = n
    · rw [if_pos he]
      rw [List.find?_cons_of_pos _ (by simp)]
      rfl
    · rw [if_neg he]
      rw [List.find?_cons_of_neg _ (by simp [he])] at h ⊢
      exact ih h

theorem nextRid_cons {s : String} {p : Nat} {ps : List Nat}
    (hm : ridMatches s = p :: ps) : nextRid s = ps.foldl max p + 1 := by
  unfold nextRid
  rw [hm]

theorem nextRid_gt_of_mem {s : String} {q : Nat}
    (h : q ∈ ridMatches s) : q < nextRid s := by
  cases hm : ridMatches s with
  | nil => rw [hm] at h; simp at h
  | cons p ps =>
    rw [hm] at h
    rw [nextRid_cons hm]
    rcases List.mem_cons.mp h with rfl | h
    · have := (le_foldl_max ps q).1
      omega
    · have := (le_foldl_max ps p).2 q h
      omega

theorem nextRid_not_mem (s : String) : nextRid s ∉ ridMatches s :=
  fun h => absurd (nextRid_gt_of_mem h) (lt_irrefl _)

theorem ensureContentTypes_frame (z1 : Zip) (nm : String)
    (h : nm ≠ "[Content_Types].xml") :
    zipLookup (ensureContentTypes z1) nm = zipLookup z1 nm := by
  unfold ensureContentTypes
  cases hct : zipLookup z1 "[Content_Types].xml" with
  | none =>
    show zipLookup (zipAdd z1 "[Content_Types].xml" defaultContentTypes) nm
      = zipLookup z1 nm
    exact zipLookup_add_other z1 _ _ nm h
  | some ct =>
    show zipLookup (if containsSubstr ct "docProps/custom.xml" = true
      then z1
      else zipUpdate z1 "[Content_Types].xml"
        (replaceFirst ct "</Types>"
          ("    " ++ customOverride ++ "\n</Types>"))) nm = zipLookup z1 nm
    by_cases hc : containsSubstr ct "docProps/custom.xml" = true
    · rw [if_pos hc]
    · rw [if_neg hc]
      exact zipLookup_update_other z1 _ _ nm h

theorem ensureRels_frame (z2 : Zip) (nm : String)
    (h : nm ≠ "_rels/.rels") :
    zipLookup (ensureRels z2) nm = zipLookup z2 nm := by
  unfold ensureRels
  cases hr : zipLookup z2 "_rels/.rels" with
  | none =>
    show zipLookup (zipAdd z2 "_rels/.rels" defaultRels) nm = zipLookup z2 nm
    exact zipLookup_add_other z2 _ _ nm h
  | some rels =>
    show zipLookup (if containsSubstr rels "custom-properties" = true
      then z2
      else zipUpdate z2 "_rels/.rels"
        (replaceFirst rels "</Relationships>"
          ("    " ++ mkRelationship (nextRid rels)
            ++ "\n</Relationships>"))) nm = zipLookup z2 nm
    by_cases hc : containsSubstr rels "custom-properties" = true
    · rw [if_pos hc]
    · rw [if_neg hc]
      exact zipLookup_update_other z2 _ _ nm h

theorem ensureContentTypes_absent (z1 : Zip)
    (h : zipLookup z1 "[Content_Types].xml" = none) :
    zipLookup (ensureContentTypes z1) "[Content_Types].xml" =
      some defaultContentTypes := by
  unfold ensureContentTypes
  rw [h]
  exact zipLookup_add_same z1 _ _ h

theorem ensureContentTypes_marker (z1 : Zip) (ct : String)
    (h : zipLookup z1 "[Content_Types].xml" = some ct)
    (hc : containsSubstr ct "docProps/custom.xml" = true) :
    ensureContentTypes z1 = z1 := by
  unfold ensureContentTypes
  rw [h]
  show (if containsSubstr ct "docProps/custom.xml" = true then z1
    else zipUpdate z1 "[Content_Types].xml"
      (replaceFirst ct "</Types>"
        ("    " ++ customOverride ++ "\n</Types>"))) = z1
  rw [if_pos hc]

theorem ensureContentTypes_append (z1 : Zip) (ct : String)
    (h : zipLookup z1 "[Content_Types].xml" = some ct)
    (hc : containsSubstr ct "docProps/custom.xml" = false) :
    zipLookup (ensureContentTypes z1) "[Content_Types].xml" =
      some (replaceFirst ct "</Types>"
        ("    " ++ customOverride ++ "\n</Types>")) := by
  unfold ensureContentTypes
  rw [h]
  show zipLookup (if containsSubstr ct "docProps/custom.xml" = true then z1
    else zipUpdate z1 "[Content_Types].xml"
      (replaceFirst ct "</Types>"
        ("    " ++ customOverride ++ "\n</Types>"))) "[Content_Types].xml" = _
  rw [if_neg (by simp [hc])]
  exact zipLookup_update_same z1 _ _ ct h

theorem ensureRels_absent (z2 : Zip)
    (h : zipLookup z2 "_rels/.rels" = none) :
    zipLookup (ensureRels z2) "_rels/.rels" = some defaultRels := by
  unfold ensureRels
  rw [h]
  exact zipLookup_add_same z2 _ _ h

theorem ensureRels_marker (z2 : Zip) (rels : String)
    (h : zipLookup z2 "_rels/.rels" = some rels)
    (hc : containsSubstr rels "custom-properties" = true) :
    ensureRels z2 = z2 := by
  unfold ensureRels
  rw [h]
  show (if containsSubstr rels "custom-properties" = true then z2
    else zipUpdate z2 "_rels/.rels"
      (replaceFirst rels "</Relationships>"
        ("    " ++ mkRelationship (nextRid rels)
          ++ "\n</Relationships>"))) = z2
  rw [if_pos hc]

theorem ensureRels_append (z2 : Zip) (rels : String)
    (h : zipLookup z2 "_rels/.rels" = some rels)
    (hc : containsSubstr rels "custom-properties" = false) :
    zipLookup (ensureRels z2) "_rels/.rels" =
      some (replaceFirst rels "</Relationships>"
        ("    " ++ mkRelationship (nextRid rels)
          ++ "\n</Relationships>")) := by
  unfold ensureRels
  rw [h]
  show zipLookup (if containsSubstr rels "custom-properties" = true then z2
    else zipUpdate z2 "_rels/.rels"
      (replaceFirst rels "</Relationships>"
        ("    " ++ mkRelationship (nextRid rels)
          ++ "\n</Relationships>"))) "_rels/.rels" = _
  rw [if_neg (by simp [hc])]
  exact zipLookup_update_same z2 _ _ rels h

/-- C4 (counterexample): the line-233 JS `replace` feeds the raw template
identifier into the replacement string, so `$`-escape expansion applies to
it.  For the identifier `X$&Y` the spliced property carries
`X</Properties>Y` — the expansion of `$&` against the matched closing
tag — not the identifier, and the patched part does not contain the
identifier at all. -/
theorem C4_counterexample :
    patchCustomXml "<Properties></Properties>" "X$&Y" =
      "<Properties>    <property fmtid=\"\x7bD5CDD505-2E9C-101B-9397-08002B2CF9AE\x7d\" pid=\"2\" name=\"SharedoTemplateId__0\"><vt:lpwstr>X</Properties>Y</vt:lpwstr></property>\n</Properties>" ∧
    containsSubstr (patchCustomXml "<Properties></Properties>" "X$&Y")
      "X$&Y" = false := by
  constructor
  · rfl
  · set_option maxRecDepth 8000 in decide

/-- C4 (amended): for a container whose custom-properties part exists, the
patcher computes the next pid as one greater than the maximum pid matched
in the existing XML (2 when none is found), splices exactly one new
property element immediately before the first closing tag of the
properties root, leaving everything before and after that point
byte-identical; the element's wide-string value is the template identifier
as transformed by JS replacement-string `$`-expansion — the identifier
itself whenever it contains no `$` — and the next patch's pid is strictly
greater: a monotonically increasing pid sequence. -/
theorem C4_patch_existing_amended (z : Zip) (tid content : String)
    (A B : List Char)
    (hz : zipLookup z "docProps/custom.xml" = some content)
    (hs : content.data = A ++ closePropsTag.data ++ B)
    (hfirst : ∀ i < A.length,
      closePropsTag.data.isPrefixOf (content.data.drop i) = false) :
    addCustomPropertyToDocx z tid = addCustomPropertyToExisting z tid ∧
    addCustomPropertyToExisting z tid =
      .ok (zipUpdate z "docProps/custom.xml" (patchCustomXml content tid)) ∧
    zipLookup (zipUpdate z "docProps/custom.xml"
        (patchCustomXml content tid)) "docProps/custom.xml" =
      some (patchCustomXml content tid) ∧
    (patchCustomXml content tid).data =
      A ++ (propHead (nextPid content)).data
        ++ expandRepl closePropsTag.data A B (tid.data ++ propTail.data)
        ++ B ∧
    ((∀ c ∈ tid.data, c ≠ '$') →
      (patchCustomXml content tid).data =
        A ++ ("    " ++ mkProperty (nextPid content) tid ++ "\n").data
          ++ closePropsTag.data ++ B) ∧
    (pidMatches content = [] → nextPid content = 2) ∧
    (pidMatches content ≠ [] →
      ∃ q ∈ pidMatches content, nextPid content = q + 1 ∧
        ∀ x ∈ pidMatches content, x ≤ q) ∧
    nextPid content < nextPid (patchCustomXml content tid) := by
  refine ⟨?_, ?_, ?_, ?_, ?_, ?_, ?_, ?_⟩
  · unfold addCustomPropertyToDocx
    rw [hz]
  · unfold addCustomPropertyToExisting
    rw [hz]
  · exact zipLookup_update_same z _ _ content hz
  · exact patchCustomXml_data content tid A B hs hfirst
  · exact patchCustomXml_data_nodollar content tid A B hs hfirst
  · intro h
    unfold nextPid
    rw [h]
  · exact nextPid_eq_max_succ
  · exact nextPid_patch_gt content tid A B hs hfirst

/-- The container for the C4 witness: a custom-properties part already
holding one property with pid 3. -/
def wXml : String :=
  "<?xml version=\"1.0\"?>\n<Properties>\n    <property fmtid=\"\x7bD5CDD505-2E9C-101B-9397-08002B2CF9AE\x7d\" pid=\"3\" name=\"Old\"><vt:lpwstr>old</vt:lpwstr></property>\n</Properties>"

/-- The witness container. -/
def wZip : Zip :=
  [("docProps/custom.xml", wXml), ("word/document.xml", "BODY")]

set_option maxRecDepth 8000 in
theorem C4_witness :
    addCustomPropertyToExisting wZip "tpl-1" =
      .ok (zipUpdate wZip "docProps/custom.xml"
        (patchCustomXml wXml "tpl-1")) ∧
    nextPid wXml < nextPid (patchCustomXml wXml "tpl-1") :=
  ⟨(C4_patch_existing_amended wZip "tpl-1" wXml
      ("<?xml version=\"1.0\"?>\n<Properties>\n    <property fmtid=\"\x7bD5CDD505-2E9C-101B-9397-08002B2CF9AE\x7d\" pid=\"3\" name=\"Old\"><vt:lpwstr>old</vt:lpwstr></property>\n").data
      [] (by decide) (by decide) (by decide)).2.1,
   (C4_patch_existing_amended wZip "tpl-1" wXml
      ("<?xml version=\"1.0\"?>\n<Properties>\n    <property fmtid=\"\x7bD5CDD505-2E9C-101B-9397-08002B2CF9AE\x7d\" pid=\"3\" name=\"Old\"><vt:lpwstr>old</vt:lpwstr></property>\n").data
      [] (by decide) (by decide) (by decide)).2.2.2.2.2.2.2⟩

/-- The container produced by `addCustomPropertyToNew`'s success path. -/
def patchedNewZip (z : Zip) (tid : String) : Zip :=
  ensureRels (ensureContentTypes
    (zipAdd z "docProps/custom.xml" (newCustomXml tid)))

/-- C5 (amended): in the absent case the patcher leaves every entry other
than the three metadata parts untouched, synthesizes a custom-properties
part holding exactly one property with pid 2, synthesizes the default
content-types manifest when none exists, appends the custom-properties
override when the manifest exists and does not already contain the
substring `docProps/custom.xml` (otherwise leaving it unchanged), and
likewise synthesizes or appends the relationship — with a freshly
computed unused rId — only when the relationships manifest does not
already contain the substring `custom-properties`. -/
theorem C5_patch_new_amended (z : Zip) (tid : String)
    (hz : zipLookup z "docProps/custom.xml" = none) :
    addCustomPropertyToDocx z tid = .ok (patchedNewZip z tid) ∧
    (∀ nm, nm ≠ "docProps/custom.xml" → nm ≠ "[Content_Types].xml" →
      nm ≠ "_rels/.rels" →
      zipLookup (patchedNewZip z tid) nm = zipLookup z nm) ∧
    zipLookup (patchedNewZip z tid) "docProps/custom.xml" =
      some (newCustomXml tid) ∧
    newCustomXml tid = renderProperties [(2, tid)] ∧
    (zipLookup z "[Content_Types].xml" = none →
      zipLookup (patchedNewZip z tid) "[Content_Types].xml" =
        some defaultContentTypes) ∧
    (∀ ct, zipLookup z "[Content_Types].xml" = some ct →
      containsSubstr ct "docProps/custom.xml" = true →
      zipLookup (patchedNewZip z tid) "[Content_Types].xml" = some ct) ∧
    (∀ ct, zipLookup z "[Content_Types].xml" = some ct →
      containsSubstr ct "docProps/custom.xml" = false →
      zipLookup (patchedNewZip z tid) "[Content_Types].xml" =
        some (replaceFirst ct "</Types>"
          ("    " ++ customOverride ++ "\n</Types>"))) ∧
    (∀ (ct : String) (A B : List Char),
      ct.data = A ++ ("</Types>" : String).data ++ B →
      (∀ i < A.length,
        ("</Types>" : String).data.isPrefixOf (ct.data.drop i) = false) →
      (replaceFirst ct "</Types>"
          ("    " ++ customOverride ++ "\n</Types>")).data =
        A ++ ("    " ++ customOverride ++ "\n").data
          ++ ("</Types>" : String).data ++ B) ∧
    (zipLookup z "_rels/.rels" = none →
      zipLookup (patchedNewZip z tid) "_rels/.rels" = some defaultRels) ∧
    (∀ rels, zipLookup z "_rels/.rels" = some rels →
      containsSubstr rels "custom-properties" = true →
      zipLookup (patchedNewZip z tid) "_rels/.rels" = some rels) ∧
    (∀ rels, zipLookup z "_rels/.rels" = some rels →
      containsSubstr rels "custom-properties" = false →
      zipLookup (patchedNewZip z tid) "_rels/.rels" =
        some (replaceFirst rels "</Relationships>"
          ("    " ++ mkRelationship (nextRid rels)
            ++ "\n</Relationships>")) ∧
      nextRid rels ∉ ridMatches rels) := by
  have hframe1 : ∀ nm, nm ≠ "docProps/custom.xml" →
      zipLookup (zipAdd z "docProps/custom.xml" (newCustomXml tid)) nm =
        zipLookup z nm :=
    fun nm h => zipLookup_add_other z _ _ nm h
  have hct1 : zipLookup (zipAdd z "docProps/custom.xml" (newCustomXml tid))
      "[Content_Types].xml" = zipLookup z "[Content_Types].xml" :=
    hframe1 _ (by decide)
  have hrels1 : zipLookup (zipAdd z "docProps/custom.xml" (newCustomXml tid))
      "_rels/.rels" = zipLookup z "_rels/.rels" :=
    hframe1 _ (by decide)
  have hrels2 : zipLookup (ensureContentTypes
      (zipAdd z "docProps/custom.xml" (newCustomXml tid))) "_rels/.rels" =
      zipLookup z "_rels/.rels" := by
    rw [ensureContentTypes_frame _ _ (by decide)]
    exact hrels1
  refine ⟨?_, ?_, ?_, ?_, ?_, ?_, ?_, ?_, ?_, ?_, ?_⟩
  · unfold addCustomPropertyToDocx addCustomPropertyToNew
    rw [hz]
    rfl
  · intro nm h1 h2 h3
    unfold patchedNewZip
    rw [ensureRels_frame _ _ h3, ensureContentTypes_frame _ _ h2]
    exact hframe1 nm h1
  · unfold patchedNewZip
    rw [ensureRels_frame _ _ (by decide),
      ensureContentTypes_frame _ _ (by decide)]
    exact zipLookup_add_same z _ _ hz
  · apply string_data_eq
    simp [newCustomXml, renderProperties, String.join, String.data_append]
  · intro h
    unfold patchedNewZip
    rw [ensureRels_frame _ _ (by decide)]
    exact ensureContentTypes_absent _ (hct1.trans h)
  · intro ct h hc
    unfold patchedNewZip
    rw [ensureRels_frame _ _ (by decide)]
    rw [ensureContentTypes_marker _ ct (hct1.trans h) hc]
    exact hct1.trans h
  · intro ct h hc
    unfold patchedNewZip
    rw [ensureRels_frame _ _ (by decide)]
    exact ensureContentTypes_append _ ct (hct1.trans h) hc
  · intro ct A B hsplit hfirst
    have h := replaceFirst_data ct "</Types>"
      ("    " ++ customOverride ++ "\n</Types>") A B (by decide)
      hsplit hfirst
    rw [h]
    simp [String.data_append, List.append_assoc]
  · intro h
    unfold patchedNewZip
    exact ensureRels_absent _ (hrels2.trans h)
  · intro rels h hc
    unfold patchedNewZip
    rw [ensureRels_marker _ rels (hrels2.trans h) hc]
    exact hrels2.trans h
  · intro rels h hc
    unfold patchedNewZip
    exact ⟨ensureRels_append _ rels (hrels2.trans h) hc,
      nextRid_not_mem rels⟩

/-- The C5 counterexample container: the content-types manifest mentions
`docProps/custom.xml` in plain text without registering it, and the
relationships manifest contains the substring `custom-properties` without
any relationship targeting the part. -/
def cexZip : Zip :=
  [("[Content_Types].xml", "<Types>docProps/custom.xml</Types>"),
   ("_rels/.rels", "<Relationships>custom-properties</Relationships>")]

/-- C5 as stated is false: on `cexZip` (no custom-properties part), the
patcher succeeds but leaves both manifests unchanged — the output's
content-types manifest does not contain the custom-properties override
and the output's relationships manifest contains no relationship
targeting `docProps/custom.xml`. -/
theorem C5_counterexample :
    addCustomPropertyToDocx cexZip "TID" = .ok (patchedNewZip cexZip "TID") ∧
    zipLookup (patchedNewZip cexZip "TID") "[Content_Types].xml" =
      some "<Types>docProps/custom.xml</Types>" ∧
    containsSubstr "<Types>docProps/custom.xml</Types>" customOverride =
      false ∧
    zipLookup (patchedNewZip cexZip "TID") "_rels/.rels" =
      some "<Relationships>custom-properties</Relationships>" ∧
    containsSubstr "<Relationships>custom-properties</Relationships>"
      "Target=\"docProps/custom.xml\"" = false :=
  ⟨rfl, by decide, by decide, by decide, by decide⟩

/-- A container with no metadata parts at all, for the C5 witness. -/
def wNewZip : Zip := [("word/document.xml", "BODY")]

theorem C5_witness :
    zipLookup (patchedNewZip wNewZip "tpl-1") "docProps/custom.xml" =
      some (newCustomXml "tpl-1") ∧
    zipLookup (patchedNewZip wNewZip "tpl-1") "[Content_Types].xml" =
      some defaultContentTypes ∧
    zipLookup (patchedNewZip wNewZip "tpl-1") "word/document.xml" =
      some "BODY" :=
  ⟨(C5_patch_new_amended wNewZip "tpl-1" (by decide)).2.2.1,
   (C5_patch_new_amended wNewZip "tpl-1" (by decide)).2.2.2.2.1 (by decide),
   ((C5_patch_new_amended wNewZip "tpl-1" (by decide)).2.1
      "word/document.xml" (by decide) (by decide) (by decide)).trans
     (by decide)⟩

end DocSpective
